import Mathlib

/-!
Verification development for the `mmbench` prediction-benchmark code
(`mmbench/utils.py`, `mmbench/plotting.py`, `mmbench/workflow/predict.py`).

The Python sources are shallowly embedded as executable Lean definitions:

* pure helpers (`listify`, `get_predictor`, the significance-marker
  selection of `plot_bar`) become Lean functions over explicit data types;
* `float` label values and p-values become exact rationals (`ℚ`), with a
  separate `nan` constructor where the code's comparisons can meet NaN;
* the stateful workflow `benchmark_pred_exp` becomes a function from an
  input record (the loaded `.npz` arrays and metadata tables) and an
  oracle (the third-party sklearn fit/score routines, the scipy t-tests)
  to an event trace (model fits, file writes) plus an `Except` result
  that models Python exceptions (assertions, KeyError, IndexError, ...).
-/

namespace Mmbench

/-! ### Structural string helpers

Python's `sorted`, `str.split("_")`, `"\n".join` and `str.replace("_", "-")`
are modelled on `String.data` so that everything reduces in the kernel. -/

/-- Strict code-point order on characters, as Python compares strings. -/
def charLt (a b : Char) : Bool := a.val < b.val

/-- Lexicographic `≤` on character lists (Python string comparison). -/
def strLeB : List Char → List Char → Bool
  | [], _ => true
  | _ :: _, [] => false
  | a :: as, b :: bs =>
      if charLt a b then true else if charLt b a then false else strLeB as bs

/-- Lexicographic `≤` on strings. -/
def strLe (a b : String) : Bool := strLeB a.data b.data

/-- Python `sorted` on a list of strings. -/
def sortStrs (l : List String) : List String :=
  List.insertionSort (fun a b => strLe a b = true) l

/-- Python `name.replace("_", "-")` for the one-character pattern used in
`plot_bar`'s pair identifiers. -/
def replaceUnderscore (s : String) : String :=
  String.mk (s.data.map fun c => if c = '_' then '-' else c)

/-- Python `item.split("_")` on the character list of a label. -/
def splitOnUnderscore : List Char → List (List Char)
  | [] => [[]]
  | c :: rest =>
      let r := splitOnUnderscore rest
      if c = '_' then [] :: r
      else (c :: r.headD []) :: r.tail

/-- Python `"\n".join(item.split("_")[:-1])`: the tick-label transformation
applied to every condition name in `plot_bar` (plotting.py line 153). -/
def stripLastComponent (s : String) : String :=
  String.mk (List.intercalate ['\n'] (splitOnUnderscore s.data).dropLast)

/-- Association-list lookup, modelling Python `dict[key]` access with the
insertion order of the dictionary preserved. -/
def lookupA {β : Type} : List (String × β) → String → Option β
  | [], _ => none
  | (k', v) :: rest, k => if k' == k then some v else lookupA rest k

/-- Run a fallible computation over each element of a list in order,
stopping at the first exception (a Python `for` loop building a list). -/
def mapME {α β : Type} (f : α → Except String β) :
    List α → Except String (List β)
  | [] => .ok []
  | a :: l =>
      match f a with
      | .error e => .error e
      | .ok b =>
          match mapME f l with
          | .error e => .error e
          | .ok bs => .ok (b :: bs)

/-! ### `mmbench/utils.py`: `listify` -/

/-- Python values as seen by `listify`: the only test the code performs is
`isinstance(data, types.GeneratorType)`, so the embedding keeps generators,
lists, tuples, `None` and scalars apart. -/
inductive PyData (α : Type) where
  | generator (elems : List (PyData α))
  | pylist (elems : List (PyData α))
  | pytuple (elems : List (PyData α))
  | pynone
  | scalar (a : α)

/-- utils.py `listify`: `list(data)` for a generator, `[data]` otherwise. -/
def listify {α : Type} (data : PyData α) : List (PyData α) :=
  match data with
  | .generator elems => elems
  | d => [d]

/-! ### `workflow/predict.py`: `get_predictor` -/

/-- A label column, after `np.array` has homogenised its dtype: either a
string column or a numeric column (floats modelled as exact rationals). -/
inductive LabelVec where
  | strs (l : List String)
  | nums (l : List ℚ)
deriving DecidableEq

/-- Numpy `astype(int)` on a scalar: truncation toward zero. -/
def pyTrunc (q : ℚ) : ℤ := if 0 ≤ q then ⌊q⌋ else ⌈q⌉

/-- The estimator chosen by `get_predictor` (predict.py lines 198-206). -/
inductive Predictor where
  | calibratedRidgeClassifier (method : String)
  | ridge (alpha : ℚ)
deriving DecidableEq

/-- predict.py `get_predictor`: `np.array(data)`; if `data[0]` is a string,
or every entry equals its integer truncation, a `CalibratedClassifierCV`
around a `RidgeClassifier` with the `roc_auc_ovr` scorer named "AUC ROC";
otherwise `Ridge(alpha=.5)` with `neg_mean_absolute_error` named "MAE".
`data[0]` on an empty array raises IndexError, modelled as `none`. -/
def get_predictor : LabelVec → Option (Predictor × String × String)
  | .strs [] => none
  | .nums [] => none
  | .strs (_ :: _) =>
      some (.calibratedRidgeClassifier "isotonic", "roc_auc_ovr", "AUC ROC")
  | .nums l =>
      if l.all fun q => q - (pyTrunc q : ℚ) == 0 then
        some (.calibratedRidgeClassifier "isotonic", "roc_auc_ovr", "AUC ROC")
      else
        some (.ridge (1/2), "neg_mean_absolute_error", "MAE")

/-! ### `plotting.py`: significance markers -/

/-- A p-value as delivered by scipy: a real number (exact rational here) or
NaN, which all comparisons treat as false. -/
inductive PVal where
  | nan
  | val (q : ℚ)
deriving DecidableEq

/-- Numpy elementwise `pvalue < threshold`: NaN compares false. -/
def pvalLt (p : PVal) (t : ℚ) : Bool :=
  match p with
  | .nan => false
  | .val q => decide (q < t)

/-- plotting.py line 165/202: `np.array((1, .05, .001, .0001))`. -/
def oneSampleThresh : List ℚ := [1, 1/20, 1/1000, 1/10000]

/-- plotting.py line 166/203: `np.array(("n.s.", "*", "**", "***"))`. -/
def oneSampleStars : List String := ["n.s.", "*", "**", "***"]

/-- Indices of the threshold bands strictly exceeding the p-value:
`np.nonzero(pvalue < thresh)[0]`. -/
def sigIndices (p : PVal) : List ℕ :=
  (List.range oneSampleThresh.length).filter fun i =>
    pvalLt p (oneSampleThresh.getD i 0)

/-- Python `max(...)` over those indices; `none` models the ValueError
raised by `max` on an empty sequence. -/
def starIdx (p : PVal) : Option ℕ := (sigIndices p).max?

/-- The textual marker `stars[max(np.nonzero(pvalue < thresh)[0])]`. -/
def starFor (p : PVal) : Option String :=
  (starIdx p).map fun i => oneSampleStars.getD i ""

/-- plotting.py lines 207-213: whether a pairwise star is drawn for the
pair with this p-value (`sig_idx != 0`); `ValueError` when the index set
is empty. -/
def pairDrawn (p : PVal) : Except String Bool :=
  match starIdx p with
  | none => .error "ValueError: max() arg is an empty sequence"
  | some i => .ok (decide (i ≠ 0))

/-! ### `plotting.py`: `plot_bar` -/

/-- One row of the pairwise-statistics DataFrame built at plotting.py
lines 178-196: columns `pair`, `tval`, `pval`. -/
structure PairRow where
  pair : String
  tval : ℚ
  pval : PVal
deriving DecidableEq

/-- The `pair` column entry
`f"qname-{key}_src-{name1.replace('_','-')}_dest-{name2.replace('_','-')}"`. -/
def mkPairName (key n1 n2 : String) : String :=
  "qname-" ++ key ++ "_src-" ++ replaceUnderscore n1 ++ "_dest-" ++
    replaceUnderscore n2

/-- One pairwise t-test row for an ordered pair of condition names, with
`tt` standing for `scipy.stats.ttest_ind` on the two score samples. -/
def mkPairRow (tt : List ℚ → List ℚ → ℚ × PVal) (key : String)
    (data : List (String × List ℚ)) (n1 n2 : String) : PairRow :=
  let r := tt ((lookupA data n1).getD []) ((lookupA data n2).getD [])
  ⟨mkPairName key n1 n2, r.1, r.2⟩

/-- plotting.py lines 179-196: the double loop over `enumerate(xlabels)`
producing one row per ordered pair of conditions (self pairs included). -/
def pairwiseRows (tt : List ℚ → List ℚ → ℚ × PVal) (key : String)
    (data : List (String × List ℚ)) : List PairRow :=
  let xlabels := data.map (·.1)
  xlabels.flatMap fun n1 => xlabels.map fun n2 => mkPairRow tt key data n1 n2

/-- plotting.py lines 164-172: the one-sample star loop. For each condition
the star for `ttest_1samp(data[name], 0).pvalue` is appended to the
(already `"_"`-stripped) tick label; an empty index set raises ValueError.
`pvalOf` stands for the `ttest_1samp(·, 0).pvalue` call. -/
def oneSampleMarks (pvalOf : List ℚ → PVal)
    (data : List (String × List ℚ)) : Except String (List String) :=
  mapME (fun p =>
    match starFor (pvalOf p.2) with
    | none => .error "ValueError: max() arg is an empty sequence"
    | some s => .ok (stripLastComponent p.1 ++ "\n(" ++ s ++ ")")) data

/-- `itertools.combinations(range(n), 2)` in its iteration order. -/
def pairCombos (n : ℕ) : List (ℕ × ℕ) :=
  (List.range n).flatMap fun i =>
    (List.range n).filterMap fun j => if i < j then some (i, j) else none

/-- plotting.py lines 204-213: select the condition pairs that get a star
drawn (`sig_idx != 0`), with the star text. -/
def pickPairs (tt : List ℚ → List ℚ → ℚ × PVal)
    (data : List (String × List ℚ)) (xlabels : List String) :
    List (ℕ × ℕ) → Except String (List (String × String × String))
  | [] => .ok []
  | c :: rest =>
      let p := (tt ((lookupA data (xlabels.getD c.1 "")).getD [])
                   ((lookupA data (xlabels.getD c.2 "")).getD [])).2
      match starIdx p with
      | none => .error "ValueError: max() arg is an empty sequence"
      | some s =>
          match pickPairs tt data xlabels rest with
          | .error e => .error e
          | .ok tail =>
              if s ≠ 0 then
                .ok ((xlabels.getD c.1 "", xlabels.getD c.2 "",
                      oneSampleStars.getD s "") :: tail)
              else .ok tail

/-- Observable outcome of a `plot_bar` call: the final tick labels, the
pairwise star annotations actually drawn, and the returned statistics
DataFrame (`None` modelled as `none`). -/
structure PlotBarResult where
  tickLabels : List String
  drawnPairs : List (String × String × String)
  stats : Option (List PairRow)
deriving DecidableEq

/-- The final tick labels: the one-sample block (plotting.py 164-172) when
`do_one_sample_stars`, otherwise the plain stripped labels of line 153. -/
def plotTicks (do_one_sample_stars : Bool) (pvalOf : List ℚ → PVal)
    (data : List (String × List ℚ)) : Except String (List String) :=
  if do_one_sample_stars then oneSampleMarks pvalOf data
  else .ok ((data.map (·.1)).map stripLastComponent)

/-- The returned statistics DataFrame: built exactly when
`report_t or do_pairwise_stars` (plotting.py 174-198), `None` otherwise. -/
def plotStats (report_t do_pairwise_stars : Bool)
    (tt : List ℚ → List ℚ → ℚ × PVal) (key : String)
    (data : List (String × List ℚ)) : Option (List PairRow) :=
  if report_t || do_pairwise_stars then some (pairwiseRows tt key data)
  else none

/-- The pairwise stars drawn: the block at plotting.py 200-219 when
`do_pairwise_stars`, nothing otherwise. -/
def plotDrawn (do_pairwise_stars : Bool)
    (tt : List ℚ → List ℚ → ℚ × PVal) (data : List (String × List ℚ)) :
    Except String (List (String × String × String)) :=
  if do_pairwise_stars then
    pickPairs tt data (data.map (·.1)) (pairCombos (data.map (·.1)).length)
  else .ok []

/-- Combine the three blocks, propagating the first exception in program
order (one-sample block first, pairwise-star block second). -/
def combineTD : Except String (List String) →
    Except String (List (String × String × String)) →
    Option (List PairRow) → Except String PlotBarResult
  | .error e, _, _ => .error e
  | .ok _, .error e, _ => .error e
  | .ok ticks, .ok drawn, stats => .ok ⟨ticks, drawn, stats⟩

/-- The body of `plot_bar` after the `rsa[key]` dictionary access. -/
def plotBody (report_t do_pairwise_stars do_one_sample_stars : Bool)
    (tt : List ℚ → List ℚ → ℚ × PVal) (pvalOf : List ℚ → PVal)
    (key : String) : Option (List (String × List ℚ)) →
    Except String PlotBarResult
  | none => .error ("KeyError: " ++ key)
  | some data =>
      combineTD (plotTicks do_one_sample_stars pvalOf data)
        (plotDrawn do_pairwise_stars tt data)
        (plotStats report_t do_pairwise_stars tt key data)

/-- plotting.py `plot_bar`, restricted to its observable behaviour. The
condition names (`xlabels`) are the keys of `rsa[key]` in insertion order;
`rsa[key]` on a missing key raises KeyError. The one-sample block runs
first, then the statistics block (`report_t or do_pairwise_stars`), then
the pairwise-star block; the statistics DataFrame is returned. -/
def plot_bar (report_t do_pairwise_stars do_one_sample_stars : Bool)
    (tt : List ℚ → List ℚ → ℚ × PVal) (pvalOf : List ℚ → PVal)
    (key : String) (rsa : List (String × List (String × List ℚ))) :
    Except String PlotBarResult :=
  plotBody report_t do_pairwise_stars do_one_sample_stars tt pvalOf key
    (lookupA rsa key)

/-! ### `workflow/predict.py`: hyper-parameter grid and CV splitter -/

/-- `np.logspace(-2, 4, 7)` as exact powers of ten. -/
def ridgeAlphas : List ℚ := [1/100, 1/10, 1, 10, 100, 1000, 10000]

/-- predict.py lines 108-113: the ridge solvers searched. -/
def ridgeSolvers : List String := ["auto", "svd", "lsqr", "sparse_cg", "saga"]

/-- A `GridSearchCV` parameter grid: the two parameter names and their
value lists. -/
structure ParamGrid where
  alphaName : String
  solverName : String
  alphas : List ℚ
  solvers : List String
deriving DecidableEq

/-- predict.py lines 105-113: parameter names carry the `estimator__`
prefix exactly when the scorer name is "AUC ROC". -/
def gridFor (name : String) : ParamGrid :=
  if name == "AUC ROC" then
    ⟨"estimator__alpha", "estimator__solver", ridgeAlphas, ridgeSolvers⟩
  else
    ⟨"alpha", "solver", ridgeAlphas, ridgeSolvers⟩

/-- Configuration of `MultilabelStratifiedShuffleSplit`. -/
structure SplitterCfg where
  nSplits : ℕ
  testSize : ℚ
  randomState : ℕ
deriving DecidableEq

/-- predict.py lines 84-85:
`MultilabelStratifiedShuffleSplit(n_splits=5, test_size=0.2, random_state=42)`. -/
def msssCfg : SplitterCfg := ⟨5, 1/5, 42⟩

/-- predict.py lines 89-94: the demographic columns the splitter stratifies
on; any other dataset name leaves `demo_scores` unbound (NameError when it
is first used). -/
def demoFor : String → Option (List String)
  | "hbn" => some ["site", "age", "sex"]
  | "euaims" => some ["site", "age", "sex", "fsiq", "asd"]
  | _ => none

/-! ### `workflow/predict.py`: `benchmark_pred_exp`

The workflow is embedded as a function from the loaded inputs plus an
oracle for the third-party fit/score routines to an event trace (model
fits and file writes, in program order) and an `Except` result modelling
Python exceptions. `Mat` is the abstract type of one resample draw of an
embedding array (one `(n_subjects, latent_dim)` slice). -/

/-- One embedding entry of a `.npz` file: its list of resample draws
(`shape[0]` many) and its latent dimension (`shape[-1]`). -/
structure EmbArray (Mat : Type) where
  draws : List Mat
  latentDim : ℕ
deriving DecidableEq

/-- The data `benchmark_pred_exp` loads before doing anything else: the
test/train `.npz` archives (key order preserved), the metadata column
lists, and per-column label vectors. -/
structure BenchInput (Mat : Type) where
  dataset : String
  outdir : String
  latentTest : List (String × EmbArray Mat)
  latentTrain : List (String × EmbArray Mat)
  metaTestCols : List String
  metaTrainCols : List String
  yTrain : String → LabelVec
  yTest : String → LabelVec

/-- What one per-draw `GridSearchCV` delivers (predict.py lines 116-128):
the best CV score, its std, the best parameters, and the test score of the
best estimator on the held-out draw. -/
structure CVResult where
  bestScore : ℚ
  stdBest : ℚ
  bestParams : String
  testScore : ℚ
deriving DecidableEq

/-- Oracle for the third-party numerical routines: `runDraw` models one
`GridSearchCV(clf, parameters, cv=msss.split(..., demo), scoring=scorer)`
fit on a train draw followed by scoring `best_estimator_` on the matching
test draw; `tt` is `scipy.stats.ttest_ind`, `pvalOf` is
`ttest_1samp(·, 0).pvalue`. -/
structure MLOracle (Mat : Type) where
  runDraw : ParamGrid → SplitterCfg → List String → LabelVec → LabelVec →
    Mat → Mat → CVResult
  tt : List ℚ → List ℚ → ℚ × PVal
  pvalOf : List ℚ → PVal

/-- One row of the `data_df` frames concatenated into
`predict_cv_<dataset>.tsv` (predict.py lines 129-133); the `0.4f` float
formatting is abstracted to the exact values. -/
structure CvRow where
  model : ℕ
  best_score : ℚ
  std_best : ℚ
  params : String
  qname : String
  latent : String
deriving DecidableEq

/-- Content of an output file. -/
inductive FileContent where
  | scoresTable (t : List (String × List (String × List ℚ)))
  | cvTable (rows : List CvRow)
  | pairwiseTable (rows : List PairRow)
deriving DecidableEq

/-- A file produced by the workflow: a delimited text file written with
`to_csv(path, sep, index)` or the saved figure image. -/
inductive OutFile where
  | csv (dir name sep : String) (index : Bool) (content : FileContent)
  | image (dir name : String)
deriving DecidableEq

/-- Observable events of a run, in program order: one `fit` per
`opti.fit(samples_train[idx], y_train)` call (carrying everything the call
depends on) and one `write` per file written. -/
inductive Event (Mat : Type) where
  | fit (qname latentKey : String) (idx : ℕ) (grid : ParamGrid)
      (splitter : SplitterCfg) (demo : List String) (trainDraw testDraw : Mat)
  | write (f : OutFile)
deriving DecidableEq

/-- The data of a successful run. -/
structure BenchOutput where
  predictResults : List (String × List (String × List ℚ))
  cvRows : List CvRow
  plots : List PlotBarResult
  writes : List OutFile
deriving DecidableEq

/-- Continuation of the dimension-check loop: keep an exception from the
remaining keys, otherwise remember this key's train draw count as the
latest binding of `n_samples`. -/
def checkDimsCont {Mat : Type} (trainArr : EmbArray Mat) :
    Except String (Option ℕ) → Except String (Option ℕ)
  | .error e => .error e
  | .ok none => .ok (some trainArr.draws.length)
  | .ok (some n) => .ok (some n)

/-- One iteration of the dimension-check loop for one test key, given the
result of `latent_data_train[latent_key]`. -/
def checkDimsHead {Mat : Type} (p : String × EmbArray Mat)
    (restRes : Except String (Option ℕ)) :
    Option (EmbArray Mat) → Except String (Option ℕ)
  | none => .error ("KeyError: " ++ p.1)
  | some trainArr =>
      if trainArr.latentDim ≠ p.2.latentDim then
        .error "The train and test data must be generated by the same model."
      else checkDimsCont trainArr restRes

/-- predict.py lines 78-83: the per-key loop asserting equal latent
dimensions; its net effect also leaves `n_samples` bound to the draw count
of the last key's train array (`none` when there is no key at all). -/
def checkDims {Mat : Type} (latentTrain : List (String × EmbArray Mat)) :
    List (String × EmbArray Mat) → Except String (Option ℕ)
  | [] => .ok none
  | p :: rest =>
      checkDimsHead p (checkDims latentTrain rest) (lookupA latentTrain p.1)

/-- predict.py lines 103-128, one iteration of `for idx in tqdm(...)`:
`get_predictor(y_train)` (IndexError on an empty label vector), the grid
for the scorer name, `msss.split(..., meta_df_tr[demo_scores])` (NameError
when the dataset bound no `demo_scores`), then the fit and test scoring of
this draw. Returns the fit event and the draw's results. -/
def drawStep {Mat : Type} (oracle : MLOracle Mat)
    (demoOpt : Option (List String)) (yTr yTe : LabelVec)
    (qname latentKey : String) (trainDraws testDraws : List Mat) (idx : ℕ) :
    Except String (Event Mat × CVResult) :=
  match get_predictor yTr with
  | none => .error "IndexError: index 0 is out of bounds"
  | some pn =>
      match demoOpt with
      | none => .error "NameError: name 'demo_scores' is not defined"
      | some demo =>
          match trainDraws[idx]?, testDraws[idx]? with
          | some trd, some ted =>
              .ok (.fit qname latentKey idx (gridFor pn.2.2) msssCfg demo trd ted,
                   oracle.runDraw (gridFor pn.2.2) msssCfg demo yTr yTe trd ted)
          | _, _ => .error "IndexError: draw index out of range"

/-- Combine one draw's outcome with the rest of the draw loop: an
exception in this draw pre-empts everything, otherwise its fit event and
result are prepended. -/
def fitLoopCont {Mat : Type} (stepRes : Except String (Event Mat × CVResult))
    (restRes : List (Event Mat) × Except String (List CVResult)) :
    List (Event Mat) × Except String (List CVResult) :=
  match stepRes with
  | .error e => ([], .error e)
  | .ok er =>
      match restRes with
      | (evs, .error e) => (er.1 :: evs, .error e)
      | (evs, .ok rs) => (er.1 :: evs, .ok (er.2 :: rs))

/-- Run a per-draw step over a list of draw indices, recording one fit
event per successful step and stopping at the first exception. -/
def fitLoop {Mat : Type}
    (step : ℕ → Except String (Event Mat × CVResult)) :
    List ℕ → List (Event Mat) × Except String (List CVResult)
  | [] => ([], .ok [])
  | i :: rest => fitLoopCont (step i) (fitLoop step rest)

/-- predict.py lines 100-128 for one `(qname, latent_key)` pair: the inner
`for idx in tqdm(range(n_samples))` loop. -/
def runPair {Mat : Type} (oracle : MLOracle Mat)
    (demoOpt : Option (List String)) (yTr yTe : LabelVec)
    (qname latentKey : String) (trainArr testArr : EmbArray Mat) (n : ℕ) :
    List (Event Mat) × Except String (List CVResult) :=
  fitLoop (drawStep oracle demoOpt yTr yTe qname latentKey
            trainArr.draws testArr.draws) (List.range n)

/-- The rows of one `data_df` (predict.py lines 129-133): one row per
draw, tagged with the target and the embedding key. -/
def mkCvRows (qname latentKey : String) (results : List CVResult) :
    List CvRow :=
  results.enum.map fun p =>
    ⟨p.1, p.2.bestScore, p.2.stdBest, p.2.bestParams, qname, latentKey⟩

/-- Combine one key's draw-loop outcome with the rest of the key loop. -/
def runKeysCont {Mat : Type} (qname : String) (p : String × EmbArray Mat)
    (pairRes : List (Event Mat) × Except String (List CVResult))
    (restRes : List (Event Mat) ×
      Except String (List (String × List ℚ) × List CvRow)) :
    List (Event Mat) × Except String (List (String × List ℚ) × List CvRow) :=
  match pairRes with
  | (evs, .error e) => (evs, .error e)
  | (evs, .ok results) =>
      match restRes with
      | (evs2, .error e) => (evs ++ evs2, .error e)
      | (evs2, .ok sr) =>
          (evs ++ evs2,
           .ok ((p.1, results.map (·.testScore)) :: sr.1,
                mkCvRows qname p.1 results ++ sr.2))

/-- One iteration of the key loop, given `latent_data_train[latent_key]`. -/
def runKeysStep {Mat : Type} (oracle : MLOracle Mat)
    (demoOpt : Option (List String)) (yTr yTe : LabelVec) (n : ℕ)
    (qname : String) (p : String × EmbArray Mat)
    (restRes : List (Event Mat) ×
      Except String (List (String × List ℚ) × List CvRow)) :
    Option (EmbArray Mat) →
    List (Event Mat) × Except String (List (String × List ℚ) × List CvRow)
  | none => ([], .error ("KeyError: " ++ p.1))
  | some trainArr =>
      runKeysCont qname p
        (runPair oracle demoOpt yTr yTe qname p.1 trainArr p.2 n) restRes

/-- predict.py lines 98-136 for one target: the `for latent_key in
latent_data_test` loop, collecting the per-key test-score lists and the
cv rows. -/
def runKeys {Mat : Type} (oracle : MLOracle Mat)
    (demoOpt : Option (List String)) (yTr yTe : LabelVec)
    (latentTrain : List (String × EmbArray Mat)) (n : ℕ) (qname : String) :
    List (String × EmbArray Mat) →
    List (Event Mat) × Except String (List (String × List ℚ) × List CvRow)
  | [] => ([], .ok ([], []))
  | p :: rest =>
      runKeysStep oracle demoOpt yTr yTe n qname p
        (runKeys oracle demoOpt yTr yTe latentTrain n qname rest)
        (lookupA latentTrain p.1)

/-- Combine one target's key-loop outcome with the rest of the target
loop; the `predict_results` dictionary gains a `qname` entry only when
the inner loop actually ran (the Python `setdefault` happens inside it). -/
def runQnamesCont {Mat : Type} (qname : String)
    (keysRes : List (Event Mat) ×
      Except String (List (String × List ℚ) × List CvRow))
    (restRes : List (Event Mat) ×
      Except String (List (String × List (String × List ℚ)) × List CvRow)) :
    List (Event Mat) ×
      Except String (List (String × List (String × List ℚ)) × List CvRow) :=
  match keysRes with
  | (evs, .error e) => (evs, .error e)
  | (evs, .ok sr) =>
      match restRes with
      | (evs2, .error e) => (evs ++ evs2, .error e)
      | (evs2, .ok ar) =>
          (evs ++ evs2,
           .ok ((match sr.1 with
                 | [] => ar.1
                 | _ => (qname, sr.1) :: ar.1),
                sr.2 ++ ar.2))

/-- predict.py lines 95-137: the `for qname in clinical_scores` loop. -/
def runQnames {Mat : Type} (oracle : MLOracle Mat)
    (demoOpt : Option (List String)) (yTrain yTest : String → LabelVec)
    (latentTrain latentTest : List (String × EmbArray Mat)) (n : ℕ) :
    List String →
    List (Event Mat) ×
      Except String (List (String × List (String × List ℚ)) × List CvRow)
  | [] => ([], .ok ([], []))
  | qname :: rest =>
      runQnamesCont qname
        (runKeys oracle demoOpt (yTrain qname) (yTest qname) latentTrain n
          qname latentTest)
        (runQnames oracle demoOpt yTrain yTest latentTrain latentTest n
          rest)

/-- The `to_csv` write of the aggregated test scores
(`predict_<dataset>.tsv`, predict.py lines 142-143). -/
def predictTsv {Mat : Type} (inp : BenchInput Mat)
    (t : List (String × List (String × List ℚ))) : OutFile :=
  .csv inp.outdir ("predict_" ++ inp.dataset ++ ".tsv") "\t" false
    (.scoresTable t)

/-- The `to_csv` write of the concatenated cv frames
(`predict_cv_<dataset>.tsv`, predict.py lines 144-146). -/
def cvTsv {Mat : Type} (inp : BenchInput Mat) (rows : List CvRow) : OutFile :=
  .csv inp.outdir ("predict_cv_" ++ inp.dataset ++ ".tsv") "\t" false
    (.cvTable rows)

/-- The `savefig` of the figure (`predict_<dataset>.png`, line 170-171). -/
def predictPng {Mat : Type} (inp : BenchInput Mat) : OutFile :=
  .image inp.outdir ("predict_" ++ inp.dataset ++ ".png")

/-- All files written on the successful path, in program order: the two
tsv files, the pairwise-statistics tsv only when some `plot_bar` call
returned a statistics DataFrame (predict.py lines 160-166), the figure. -/
def benchWrites {Mat : Type} (inp : BenchInput Mat)
    (pr : List (String × List (String × List ℚ)) × List CvRow)
    (plots : List PlotBarResult) : List OutFile :=
  [predictTsv inp pr.1, cvTsv inp pr.2] ++
  (if (plots.filterMap (·.stats)).length > 0 then
    [OutFile.csv inp.outdir "predict_pairwise_stats.tsv" "\t" false
      (.pairwiseTable (plots.filterMap (·.stats)).flatten)]
   else []) ++
  [predictPng inp]

/-- The tail of the workflow after the two tsv writes: the plotting loop
(each call with `do_one_sample_stars=False` and the default
`report_t=False`, `do_pairwise_stars=False`), then the conditional
pairwise write and the figure. A plotting exception leaves just the two
tsv writes in the trace. -/
def benchFinish {Mat : Type} (inp : BenchInput Mat) (evs : List (Event Mat))
    (pr : List (String × List (String × List ℚ)) × List CvRow) :
    Except String (List PlotBarResult) →
    List (Event Mat) × Except String BenchOutput
  | .error e =>
      (evs ++ [.write (predictTsv inp pr.1), .write (cvTsv inp pr.2)],
       .error e)
  | .ok plots =>
      (evs ++ (benchWrites inp pr plots).map .write,
       .ok ⟨pr.1, pr.2, plots, benchWrites inp pr plots⟩)

/-- The workflow after the dimension check: the training loops, then the
writes and the plotting stage. -/
def benchTrainResult {Mat : Type} (inp : BenchInput Mat)
    (oracle : MLOracle Mat) :
    List (Event Mat) ×
      Except String (List (String × List (String × List ℚ)) × List CvRow) →
    List (Event Mat) × Except String BenchOutput
  | (evs, .error e) => (evs, .error e)
  | (evs, .ok pr) =>
      benchFinish inp evs pr
        (mapME (fun q => plot_bar false false false oracle.tt oracle.pvalOf
          q pr.1) inp.metaTrainCols)

/-- The workflow after the two assertions: the dimension-check loop binds
`n_samples`, then the training loops run. -/
def benchDims {Mat : Type} (inp : BenchInput Mat) (oracle : MLOracle Mat) :
    Except String (Option ℕ) →
    List (Event Mat) × Except String BenchOutput
  | .error e => ([], .error e)
  | .ok nOpt =>
      benchTrainResult inp oracle
        (runQnames oracle (demoFor inp.dataset) inp.yTrain inp.yTest
          inp.latentTrain inp.latentTest (nOpt.getD 0) inp.metaTrainCols)

/-- predict.py `benchmark_pred_exp`: the two key/column assertions, the
latent-dimension check, the training loops, the two `to_csv` writes, the
plotting loop (`plot_bar` with `do_one_sample_stars=False` and the flags
`report_t`/`do_pairwise_stars` at their default `False`), the conditional
pairwise-statistics write, and the `savefig` of the figure. -/
def benchmark_pred_exp {Mat : Type} (inp : BenchInput Mat)
    (oracle : MLOracle Mat) :
    List (Event Mat) × Except String BenchOutput :=
  if sortStrs (inp.latentTest.map (·.1)) ≠ sortStrs (inp.latentTrain.map (·.1))
  then ([], .error "latent data must have the same keys")
  else if sortStrs inp.metaTestCols ≠ sortStrs inp.metaTrainCols
  then ([], .error "metadata must have the same columns.")
  else benchDims inp oracle (checkDims inp.latentTrain inp.latentTest)

/-! ### Helper lemmas on the significance-marker selection -/

lemma range_four : List.range 4 = [0, 1, 2, 3] := rfl

lemma threshD0 : oneSampleThresh.getD 0 0 = 1 := rfl

lemma threshD1 : oneSampleThresh.getD 1 0 = 1/20 := rfl

lemma threshD2 : oneSampleThresh.getD 2 0 = 1/1000 := rfl

lemma threshD3 : oneSampleThresh.getD 3 0 = 1/10000 := rfl

lemma sig_expand (q : ℚ) :
    sigIndices (PVal.val q) =
      List.filter (fun i => decide (q < oneSampleThresh.getD i 0))
        [0, 1, 2, 3] := by
  show List.filter _ (List.range oneSampleThresh.length) = _
  rw [show oneSampleThresh.length = 4 from rfl, range_four]
  rfl

lemma sigIndices_band3 (q : ℚ) (h4 : q < 1/10000) :
    sigIndices (PVal.val q) = [0, 1, 2, 3] := by
  have h3 : q < 1/1000 := h4.trans (by norm_num)
  have h2 : q < 1/20 := h3.trans (by norm_num)
  have h1 : q < 1 := h2.trans (by norm_num)
  rw [sig_expand]
  simp only [List.filter_cons, List.filter_nil, threshD0, threshD1, threshD2,
    threshD3, decide_eq_true h1, decide_eq_true h2, decide_eq_true h3,
    decide_eq_true h4]
  simp

lemma sigIndices_band2 (q : ℚ) (h3 : q < 1/1000) (h4 : ¬ q < 1/10000) :
    sigIndices (PVal.val q) = [0, 1, 2] := by
  have h2 : q < 1/20 := h3.trans (by norm_num)
  have h1 : q < 1 := h2.trans (by norm_num)
  rw [sig_expand]
  simp only [List.filter_cons, List.filter_nil, threshD0, threshD1, threshD2,
    threshD3, decide_eq_true h1, decide_eq_true h2, decide_eq_true h3,
    decide_eq_false h4]
  simp

lemma sigIndices_band1 (q : ℚ) (h2 : q < 1/20) (h3 : ¬ q < 1/1000) :
    sigIndices (PVal.val q) = [0, 1] := by
  have h1 : q < 1 := h2.trans (by norm_num)
  have h4 : ¬ q < 1/10000 := fun hc => h3 (hc.trans (by norm_num))
  rw [sig_expand]
  simp only [List.filter_cons, List.filter_nil, threshD0, threshD1, threshD2,
    threshD3, decide_eq_true h1, decide_eq_true h2, decide_eq_false h3,
    decide_eq_false h4]
  simp

lemma sigIndices_band0 (q : ℚ) (h1 : q < 1) (h2 : ¬ q < 1/20) :
    sigIndices (PVal.val q) = [0] := by
  have h3 : ¬ q < 1/1000 := fun hc => h2 (hc.trans (by norm_num))
  have h4 : ¬ q < 1/10000 := fun hc => h2 (hc.trans (by norm_num))
  rw [sig_expand]
  simp only [List.filter_cons, List.filter_nil, threshD0, threshD1, threshD2,
    threshD3, decide_eq_true h1, decide_eq_false h2, decide_eq_false h3,
    decide_eq_false h4]
  simp

lemma sigIndices_empty (q : ℚ) (h1 : ¬ q < 1) :
    sigIndices (PVal.val q) = [] := by
  have h2 : ¬ q < 1/20 := fun hc => h1 (hc.trans (by norm_num))
  have h3 : ¬ q < 1/1000 := fun hc => h1 (hc.trans (by norm_num))
  have h4 : ¬ q < 1/10000 := fun hc => h1 (hc.trans (by norm_num))
  rw [sig_expand]
  simp only [List.filter_cons, List.filter_nil, threshD0, threshD1, threshD2,
    threshD3, decide_eq_false h1, decide_eq_false h2, decide_eq_false h3,
    decide_eq_false h4]
  simp

lemma starFor_of_starIdx {p : PVal} {i : ℕ} (h : starIdx p = some i) :
    starFor p = some (oneSampleStars.getD i "") := by
  unfold starFor
  rw [h]
  rfl

lemma pairDrawn_of_starIdx {p : PVal} {i : ℕ} (h : starIdx p = some i) :
    pairDrawn p = .ok (decide (i ≠ 0)) := by
  unfold pairDrawn
  rw [h]

lemma starFor_nan : starFor PVal.nan = none := rfl

lemma starFor_ge_one (q : ℚ) (h1 : ¬ q < 1) : starFor (PVal.val q) = none := by
  unfold starFor starIdx
  rw [sigIndices_empty q h1]
  rfl

lemma starIdx_band3 (q : ℚ) (h4 : q < 1/10000) :
    starIdx (PVal.val q) = some 3 := by
  unfold starIdx
  rw [sigIndices_band3 q h4]
  rfl

lemma starIdx_band2 (q : ℚ) (h3 : q < 1/1000) (h4 : ¬ q < 1/10000) :
    starIdx (PVal.val q) = some 2 := by
  unfold starIdx
  rw [sigIndices_band2 q h3 h4]
  rfl

lemma starIdx_band1 (q : ℚ) (h2 : q < 1/20) (h3 : ¬ q < 1/1000) :
    starIdx (PVal.val q) = some 1 := by
  unfold starIdx
  rw [sigIndices_band1 q h2 h3]
  rfl

lemma starIdx_band0 (q : ℚ) (h1 : q < 1) (h2 : ¬ q < 1/20) :
    starIdx (PVal.val q) = some 0 := by
  unfold starIdx
  rw [sigIndices_band0 q h1 h2]
  rfl

lemma starIdx_lt_one (q : ℚ) (h1 : q < 1) :
    ∃ i, starIdx (PVal.val q) = some i ∧ i < 4 := by
  by_cases h4 : q < 1/10000
  · exact ⟨3, starIdx_band3 q h4, by omega⟩
  · by_cases h3 : q < 1/1000
    · exact ⟨2, starIdx_band2 q h3 h4, by omega⟩
    · by_cases h2 : q < 1/20
      · exact ⟨1, starIdx_band1 q h2 h3, by omega⟩
      · exact ⟨0, starIdx_band0 q h1 h2, by omega⟩

lemma starsD_mem (i : ℕ) (h : i < 4) :
    oneSampleStars.getD i "" ∈ oneSampleStars := by
  interval_cases i <;> decide

lemma starFor_none_iff (p : PVal) :
    starFor p = none ↔ pvalLt p 1 = false := by
  cases p with
  | nan => exact iff_of_true starFor_nan rfl
  | val q =>
      by_cases h1 : q < 1
      · obtain ⟨i, hi, _⟩ := starIdx_lt_one q h1
        refine iff_of_false ?_ ?_
        · rw [starFor_of_starIdx hi]
          simp
        · simp [pvalLt, h1]
      · exact iff_of_true (starFor_ge_one q h1) (by simp [pvalLt, h1])

lemma starFor_mem_of_lt_one (p : PVal) (hp : pvalLt p 1 = true) :
    ∃ s, starFor p = some s ∧ s ∈ oneSampleStars := by
  cases p with
  | nan => simp [pvalLt] at hp
  | val q =>
      have h1 : q < 1 := of_decide_eq_true hp
      obtain ⟨i, hi, hlt⟩ := starIdx_lt_one q h1
      exact ⟨_, starFor_of_starIdx hi, starsD_mem i hlt⟩

lemma oneSampleMarks_error (pvalOf : List ℚ → PVal) :
    ∀ data : List (String × List ℚ),
      (∃ d ∈ data, starFor (pvalOf d.2) = none) →
      ∃ e, oneSampleMarks pvalOf data = .error e
  | [], h => by simp at h
  | d :: rest, h => by
      rcases h with ⟨d', hd', hnone⟩
      rcases List.mem_cons.mp hd' with he | hrest
      · subst he
        exact ⟨_, by unfold oneSampleMarks mapME; rw [hnone]⟩
      · cases hf : starFor (pvalOf d.2) with
        | none => exact ⟨_, by unfold oneSampleMarks mapME; rw [hf]⟩
        | some s =>
            obtain ⟨e, he⟩ :=
              oneSampleMarks_error pvalOf rest ⟨d', hrest, hnone⟩
            refine ⟨e, ?_⟩
            unfold oneSampleMarks mapME
            rw [hf]
            unfold oneSampleMarks at he
            rw [he]

lemma oneSampleMarks_ok (pvalOf : List ℚ → PVal) :
    ∀ data : List (String × List ℚ),
      (∀ d ∈ data, starFor (pvalOf d.2) ≠ none) →
      ∃ marks, oneSampleMarks pvalOf data = .ok marks ∧
        marks.length = data.length
  | [], _ => ⟨[], rfl, rfl⟩
  | d :: rest, h => by
      obtain ⟨s, hs⟩ :=
        Option.ne_none_iff_exists'.mp (h d (List.mem_cons_self d rest))
      obtain ⟨marks, hm, hlen⟩ :=
        oneSampleMarks_ok pvalOf rest fun d' hd' =>
          h d' (List.mem_cons_of_mem d hd')
      refine ⟨(stripLastComponent d.1 ++ "\n(" ++ s ++ ")") :: marks, ?_,
        by simp [hlen]⟩
      unfold oneSampleMarks mapME
      rw [hs]
      unfold oneSampleMarks at hm
      rw [hm]

/-! ### Claim theorems on the pure helpers -/

/-- C8: `listify` returns the one-element list `[data]` on every input
that is not a generator (lists, tuples, `None`, scalars included), and the
generator's element list when the input is a generator. -/
theorem C8_listify {α : Type} (d : PyData α) :
    ((∀ l, d ≠ PyData.generator l) → listify d = [d]) ∧
    (∀ l, d = PyData.generator l → listify d = l) := by
  constructor
  · intro h
    cases d with
    | generator l => exact absurd rfl (h l)
    | pylist l => rfl
    | pytuple l => rfl
    | pynone => rfl
    | scalar a => rfl
  · intro l hl
    subst hl
    rfl

/-- C8 witness: `listify` at a concrete list input and a concrete
generator input. -/
theorem C8_listify_witness :
    listify (PyData.pylist [PyData.scalar (3 : ℕ)]) =
      [PyData.pylist [PyData.scalar (3 : ℕ)]] ∧
    listify (PyData.generator [PyData.scalar (7 : ℕ), PyData.pynone]) =
      [PyData.scalar (7 : ℕ), PyData.pynone] :=
  ⟨(C8_listify _).1 (fun _ h => PyData.noConfusion h),
   (C8_listify _).2 _ rfl⟩

/-- C3: `get_predictor` returns the calibrated ridge classifier with the
one-vs-rest ROC-AUC scorer named "AUC ROC" when the first entry is a
string or when all numeric entries equal their integer truncation, and
the `Ridge(alpha=0.5)` regressor with the negated mean-absolute-error
scorer named "MAE" on every other numeric label vector. -/
theorem C3_get_predictor (v : LabelVec) :
    (∀ s rest, v = LabelVec.strs (s :: rest) →
        get_predictor v =
          some (.calibratedRidgeClassifier "isotonic", "roc_auc_ovr",
                "AUC ROC")) ∧
    (∀ q rest, v = LabelVec.nums (q :: rest) →
        ((∀ x ∈ q :: rest, x - (pyTrunc x : ℚ) = 0) →
            get_predictor v =
              some (.calibratedRidgeClassifier "isotonic", "roc_auc_ovr",
                    "AUC ROC")) ∧
        ((∃ x ∈ q :: rest, x - (pyTrunc x : ℚ) ≠ 0) →
            get_predictor v =
              some (.ridge (1/2), "neg_mean_absolute_error", "MAE"))) := by
  refine ⟨?_, ?_⟩
  · intro s rest hv
    subst hv
    rfl
  · intro q rest hv
    subst hv
    have hred : get_predictor (LabelVec.nums (q :: rest)) =
        if (q :: rest).all (fun x => x - (pyTrunc x : ℚ) == 0) then
          some (.calibratedRidgeClassifier "isotonic", "roc_auc_ovr",
                "AUC ROC")
        else some (.ridge (1/2), "neg_mean_absolute_error", "MAE") := rfl
    constructor
    · intro hall
      have hb : (q :: rest).all (fun x => x - (pyTrunc x : ℚ) == 0) = true := by
        rw [List.all_eq_true]
        intro x hx
        exact beq_iff_eq.mpr (hall x hx)
      rw [hred, if_pos hb]
    · rintro ⟨x, hx, hne⟩
      have hb : ¬ (q :: rest).all (fun x => x - (pyTrunc x : ℚ) == 0) = true := by
        rw [List.all_eq_true]
        intro hc
        exact hne (beq_iff_eq.mp (hc x hx))
      rw [hred, if_neg hb]

/-- C3 witness: a string vector and the whole-valued vector `[2.0]` give
the classifier with the "AUC ROC" scorer; `[5/2]` gives the
`Ridge(alpha=0.5)` regressor with the "MAE" scorer. -/
theorem C3_get_predictor_witness :
    get_predictor (LabelVec.strs ["asd"]) =
      some (.calibratedRidgeClassifier "isotonic", "roc_auc_ovr",
            "AUC ROC") ∧
    get_predictor (LabelVec.nums [2]) =
      some (.calibratedRidgeClassifier "isotonic", "roc_auc_ovr",
            "AUC ROC") ∧
    get_predictor (LabelVec.nums [5/2]) =
      some (.ridge (1/2), "neg_mean_absolute_error", "MAE") := by
  have htr : pyTrunc 2 = 2 := by
    unfold pyTrunc
    rw [if_pos (by norm_num)]
    norm_num
  have htr2 : pyTrunc (5/2) = 2 := by
    unfold pyTrunc
    rw [if_pos (by norm_num), Int.floor_eq_iff]
    norm_num
  refine ⟨(C3_get_predictor _).1 "asd" [] rfl, ?_, ?_⟩
  · refine ((C3_get_predictor _).2 2 [] rfl).1 ?_
    intro x hx
    rw [List.mem_singleton.mp hx, htr]
    norm_num
  · refine ((C3_get_predictor _).2 (5/2) [] rfl).2 ⟨5/2, ?_, ?_⟩
    · exact List.mem_singleton.mpr rfl
    · rw [htr2]
      norm_num

/-- C4: for a p-value strictly below 1, the marker is the star at the
largest band index whose threshold `(1, .05, .001, .0001)` strictly
exceeds the p-value, and a pairwise star is drawn exactly when the marker
is not "n.s.", i.e. exactly when the p-value is below .05. -/
theorem C4_marker_bands (q : ℚ) (h : q < 1) :
    (∃ i, starIdx (PVal.val q) = some i ∧
        pvalLt (PVal.val q) (oneSampleThresh.getD i 0) = true ∧
        (∀ j, j < oneSampleThresh.length →
            pvalLt (PVal.val q) (oneSampleThresh.getD j 0) = true → j ≤ i) ∧
        starFor (PVal.val q) = some (oneSampleStars.getD i "")) ∧
    (pairDrawn (PVal.val q) = .ok true ↔
      starFor (PVal.val q) ≠ some "n.s.") ∧
    (pairDrawn (PVal.val q) = .ok true ↔ q < 1/20) := by
  have hlen : oneSampleThresh.length = 4 := rfl
  by_cases h4 : q < 1/10000
  · have hidx := starIdx_band3 q h4
    refine ⟨⟨3, hidx, ?_, ?_, starFor_of_starIdx hidx⟩, ?_, ?_⟩
    · rw [threshD3]
      exact decide_eq_true h4
    · intro j hj _
      rw [hlen] at hj
      omega
    · rw [pairDrawn_of_starIdx hidx, starFor_of_starIdx hidx]
      exact iff_of_true rfl (by decide)
    · rw [pairDrawn_of_starIdx hidx]
      exact iff_of_true rfl (h4.trans (by norm_num))
  · by_cases h3 : q < 1/1000
    · have hidx := starIdx_band2 q h3 h4
      refine ⟨⟨2, hidx, ?_, ?_, starFor_of_starIdx hidx⟩, ?_, ?_⟩
      · rw [threshD2]
        exact decide_eq_true h3
      · intro j hj hq
        rw [hlen] at hj
        interval_cases j
        · omega
        · omega
        · omega
        · rw [threshD3] at hq
          exact absurd (of_decide_eq_true hq) h4
      · rw [pairDrawn_of_starIdx hidx, starFor_of_starIdx hidx]
        exact iff_of_true rfl (by decide)
      · rw [pairDrawn_of_starIdx hidx]
        exact iff_of_true rfl (h3.trans (by norm_num))
    · by_cases h2 : q < 1/20
      · have hidx := starIdx_band1 q h2 h3
        refine ⟨⟨1, hidx, ?_, ?_, starFor_of_starIdx hidx⟩, ?_, ?_⟩
        · rw [threshD1]
          exact decide_eq_true h2
        · intro j hj hq
          rw [hlen] at hj
          interval_cases j
          · omega
          · omega
          · rw [threshD2] at hq
            exact absurd (of_decide_eq_true hq) h3
          · rw [threshD3] at hq
            exact absurd (of_decide_eq_true hq)
              fun hc => h3 (hc.trans (by norm_num))
        · rw [pairDrawn_of_starIdx hidx, starFor_of_starIdx hidx]
          exact iff_of_true rfl (by decide)
        · rw [pairDrawn_of_starIdx hidx]
          exact iff_of_true rfl h2
      · have hidx := starIdx_band0 q h h2
        refine ⟨⟨0, hidx, ?_, ?_, starFor_of_starIdx hidx⟩, ?_, ?_⟩
        · rw [threshD0]
          exact decide_eq_true h
        · intro j hj hq
          rw [hlen] at hj
          interval_cases j
          · omega
          · rw [threshD1] at hq
            exact absurd (of_decide_eq_true hq) h2
          · rw [threshD2] at hq
            exact absurd (of_decide_eq_true hq)
              fun hc => h2 (hc.trans (by norm_num))
          · rw [threshD3] at hq
            exact absurd (of_decide_eq_true hq)
              fun hc => h2 (hc.trans (by norm_num))
        · rw [pairDrawn_of_starIdx hidx, starFor_of_starIdx hidx]
          exact iff_of_false (fun hc => by simpa using Except.ok.inj hc)
            (by decide)
        · rw [pairDrawn_of_starIdx hidx]
          exact iff_of_false (fun hc => by simpa using Except.ok.inj hc) h2

/-- C4 witness: the marker-band theorem applied at the p-value 1/100. -/
theorem C4_marker_bands_witness :
    ((1 : ℚ)/100 < 1) ∧
    ((∃ i, starIdx (PVal.val (1/100)) = some i ∧
        pvalLt (PVal.val (1/100)) (oneSampleThresh.getD i 0) = true ∧
        (∀ j, j < oneSampleThresh.length →
            pvalLt (PVal.val (1/100)) (oneSampleThresh.getD j 0) = true →
              j ≤ i) ∧
        starFor (PVal.val (1/100)) = some (oneSampleStars.getD i "")) ∧
    (pairDrawn (PVal.val (1/100)) = .ok true ↔
      starFor (PVal.val (1/100)) ≠ some "n.s.") ∧
    (pairDrawn (PVal.val (1/100)) = .ok true ↔ (1 : ℚ)/100 < 1/20)) :=
  ⟨by norm_num, C4_marker_bands (1/100) (by norm_num)⟩

/-- C10: the one-sample marker loop fails with an exception as soon as
some condition's p-value is not strictly below 1 (its band index set is
empty), and succeeds — every condition receiving a marker from the star
list, at least "n.s." — whenever every p-value is strictly below 1. -/
theorem C10_one_sample_guard (pvalOf : List ℚ → PVal)
    (data : List (String × List ℚ)) :
    (∀ p : PVal, (starFor p = none ↔ pvalLt p 1 = false)) ∧
    ((∃ d ∈ data, pvalLt (pvalOf d.2) 1 = false) →
        ∃ e, oneSampleMarks pvalOf data = .error e) ∧
    ((∀ d ∈ data, pvalLt (pvalOf d.2) 1 = true) →
        ∃ marks, oneSampleMarks pvalOf data = .ok marks ∧
          marks.length = data.length ∧
          ∀ d ∈ data, ∃ s, starFor (pvalOf d.2) = some s ∧
            s ∈ oneSampleStars) := by
  refine ⟨starFor_none_iff, ?_, ?_⟩
  · rintro ⟨d, hd, hbad⟩
    exact oneSampleMarks_error pvalOf data
      ⟨d, hd, (starFor_none_iff _).mpr hbad⟩
  · intro hall
    obtain ⟨marks, hm, hlen⟩ := oneSampleMarks_ok pvalOf data fun d hd => by
      rw [Ne, starFor_none_iff]
      simp [hall d hd]
    exact ⟨marks, hm, hlen, fun d hd =>
      starFor_mem_of_lt_one _ (hall d hd)⟩

/-- C10 witness: the guard theorem applied to one condition with p-value
1/100 (success side) and, for the failure side, the `starFor`/`pvalLt`
equivalence at the NaN p-value and at p-value 1. -/
theorem C10_one_sample_guard_witness :
    (∀ d ∈ [("model_a", [(1 : ℚ), 2])],
        pvalLt ((fun _ => PVal.val (1/100)) (Prod.snd d)) 1 = true) ∧
    (∃ marks,
        oneSampleMarks (fun _ => PVal.val (1/100))
          [("model_a", [(1 : ℚ), 2])] = .ok marks ∧
        marks.length = [("model_a", [(1 : ℚ), 2])].length ∧
        ∀ d ∈ [("model_a", [(1 : ℚ), 2])],
          ∃ s, starFor ((fun _ => PVal.val (1/100)) (Prod.snd d)) = some s ∧
            s ∈ oneSampleStars) ∧
    (starFor PVal.nan = none ↔ pvalLt PVal.nan 1 = false) ∧
    (starFor (PVal.val 1) = none ↔ pvalLt (PVal.val 1) 1 = false) := by
  have hall : ∀ d ∈ [("model_a", [(1 : ℚ), 2])],
      pvalLt ((fun _ => PVal.val (1/100)) (Prod.snd d)) 1 = true := by
    intro d _
    show decide ((1 : ℚ)/100 < 1) = true
    rw [decide_eq_true_eq]
    norm_num
  refine ⟨hall, ?_, ?_, ?_⟩
  · exact (C10_one_sample_guard (fun _ => PVal.val (1/100))
      [("model_a", [(1 : ℚ), 2])]).2.2 hall
  · exact (C10_one_sample_guard (fun _ => PVal.val 0) []).1 PVal.nan
  · exact (C10_one_sample_guard (fun _ => PVal.val 0) []).1 (PVal.val 1)

/-! ### Helper lemmas for the pairwise-statistics table -/

lemma flatMap_map_length {α β γ : Type} (f : α → β → γ) (l1 : List α)
    (l2 : List β) :
    (l1.flatMap fun a => l2.map (f a)).length = l1.length * l2.length := by
  induction l1 with
  | nil => simp
  | cons a l ih =>
      simp only [List.flatMap_cons, List.length_append, List.length_map, ih,
        List.length_cons]
      ring

lemma flatMap_map_getElem {α β γ : Type} (f : α → β → γ) (l1 : List α)
    (l2 : List β) (i j : ℕ) (hi : i < l1.length) (hj : j < l2.length)
    (a0 : α) (b0 : β) :
    (l1.flatMap fun a => l2.map (f a))[i * l2.length + j]? =
      some (f (l1.getD i a0) (l2.getD j b0)) := by
  induction l1 generalizing i with
  | nil => simp at hi
  | cons a l ih =>
      cases i with
      | zero =>
          rw [List.flatMap_cons, List.getElem?_append,
            if_pos (by simpa using hj)]
          rw [show (0 : ℕ) * l2.length + j = j by ring]
          rw [List.getElem?_map, List.getElem?_eq_getElem hj]
          simp [List.getD_eq_getElem?_getD, List.getElem?_eq_getElem hj]
      | succ i' =>
          have hlen : (l2.map (f a)).length = l2.length := List.length_map _ _
          rw [List.flatMap_cons, List.getElem?_append,
            if_neg (by rw [hlen]; push_neg; nlinarith)]
          rw [hlen, show (i' + 1) * l2.length + j - l2.length =
            i' * l2.length + j by ring_nf; omega]
          exact ih i' (by simpa using hi)

lemma mem_flatMap_map {α β γ : Type} (f : α → β → γ) (l1 : List α)
    (l2 : List β) (c : γ) :
    c ∈ (l1.flatMap fun a => l2.map (f a)) ↔
      ∃ a ∈ l1, ∃ b ∈ l2, c = f a b := by
  simp only [List.mem_flatMap, List.mem_map]
  constructor
  · rintro ⟨a, ha, b, hb, hc⟩
    exact ⟨a, ha, b, hb, hc.symm⟩
  · rintro ⟨a, ha, b, hb, hc⟩
    exact ⟨a, ha, b, hb, hc.symm⟩

lemma plot_bar_ok_inv {rt dps do1 : Bool}
    {tt : List ℚ → List ℚ → ℚ × PVal} {pvalOf : List ℚ → PVal}
    {key : String} {rsa : List (String × List (String × List ℚ))}
    {r : PlotBarResult}
    (h : plot_bar rt dps do1 tt pvalOf key rsa = .ok r) :
    ∃ data, lookupA rsa key = some data ∧
      ∃ ticks drawn, plotTicks do1 pvalOf data = .ok ticks ∧
        plotDrawn dps tt data = .ok drawn ∧
        r = ⟨ticks, drawn, plotStats rt dps tt key data⟩ := by
  unfold plot_bar at h
  cases hk : lookupA rsa key with
  | none =>
      rw [hk] at h
      simp [plotBody] at h
  | some data =>
      rw [hk] at h
      rw [show plotBody rt dps do1 tt pvalOf key (some data) =
            combineTD (plotTicks do1 pvalOf data) (plotDrawn dps tt data)
              (plotStats rt dps tt key data) from rfl] at h
      cases hti : plotTicks do1 pvalOf data with
      | error e =>
          rw [hti] at h
          simp [combineTD] at h
      | ok ticks =>
          cases hdr : plotDrawn dps tt data with
          | error e =>
              rw [hti, hdr] at h
              simp [combineTD] at h
          | ok drawn =>
              rw [hti, hdr] at h
              have h' : Except.ok
                  (⟨ticks, drawn, plotStats rt dps tt key data⟩ :
                    PlotBarResult) = Except.ok r := h
              injection h' with h''
              subst h''
              exact ⟨data, rfl, ticks, drawn, hti, hdr, rfl⟩

lemma pairwiseRows_eq (tt : List ℚ → List ℚ → ℚ × PVal) (key : String)
    (data : List (String × List ℚ)) :
    pairwiseRows tt key data =
      (data.map (·.1)).flatMap fun n1 =>
        (data.map (·.1)).map fun n2 => mkPairRow tt key data n1 n2 := rfl

/-- C7: a successful `plot_bar` call returns a pairwise-statistics table
exactly when `report_t` or `do_pairwise_stars` is set (`None` when both
are false); the table has one row per ordered pair of conditions,
self-pairs included, whose `tval`/`pval` columns hold the two-sample
t-test outputs on the two conditions' samples. -/
theorem C7_pairwise_stats (rt dps do1 : Bool)
    (tt : List ℚ → List ℚ → ℚ × PVal) (pvalOf : List ℚ → PVal)
    (key : String) (rsa : List (String × List (String × List ℚ)))
    (r : PlotBarResult)
    (h : plot_bar rt dps do1 tt pvalOf key rsa = .ok r) :
    (r.stats = none ↔ (rt = false ∧ dps = false)) ∧
    ((rt || dps) = true →
      ∃ data rows, lookupA rsa key = some data ∧ r.stats = some rows ∧
        rows.length = data.length * data.length ∧
        (∀ i j, i < data.length → j < data.length →
            rows[i * data.length + j]? =
              some (mkPairRow tt key data ((data.map (·.1)).getD i "")
                ((data.map (·.1)).getD j ""))) ∧
        (∀ n ∈ data.map (·.1), mkPairRow tt key data n n ∈ rows) ∧
        (∀ row ∈ rows, ∃ n1 ∈ data.map (·.1), ∃ n2 ∈ data.map (·.1),
            row = mkPairRow tt key data n1 n2 ∧
            row.tval =
              (tt ((lookupA data n1).getD [])
                ((lookupA data n2).getD [])).1 ∧
            row.pval =
              (tt ((lookupA data n1).getD [])
                ((lookupA data n2).getD [])).2)) := by
  obtain ⟨data, hdata, ticks, drawn, hti, hdr, hr⟩ := plot_bar_ok_inv h
  subst hr
  constructor
  · show plotStats rt dps tt key data = none ↔ _
    unfold plotStats
    cases rt <;> cases dps <;> simp
  · intro hflag
    refine ⟨data, pairwiseRows tt key data, hdata, ?_, ?_, ?_, ?_, ?_⟩
    · show plotStats rt dps tt key data = _
      unfold plotStats
      rw [if_pos hflag]
    · have := flatMap_map_length (mkPairRow tt key data) (data.map (·.1))
        (data.map (·.1))
      rw [pairwiseRows_eq]
      simpa using this
    · intro i j hi hj
      have hi' : i < (data.map (·.1)).length := by simpa using hi
      have hj' : j < (data.map (·.1)).length := by simpa using hj
      rw [pairwiseRows_eq,
        show data.length = (data.map (·.1)).length from
          (List.length_map _ _).symm]
      exact flatMap_map_getElem (mkPairRow tt key data) (data.map (·.1))
        (data.map (·.1)) i j hi' hj' "" ""
    · intro n hn
      rw [pairwiseRows_eq, mem_flatMap_map]
      exact ⟨n, hn, n, hn, rfl⟩
    · intro row hrow
      rw [pairwiseRows_eq, mem_flatMap_map] at hrow
      obtain ⟨n1, h1, n2, h2, heq⟩ := hrow
      subst heq
      exact ⟨n1, h1, n2, h2, rfl, rfl, rfl⟩

/-- Concrete two-sample t-test stub for the C7 witness. -/
def cexTT : List ℚ → List ℚ → ℚ × PVal := fun _ _ => (0, PVal.val 0)

/-- Concrete per-condition score samples for the C7 witness. -/
def cexRsaData : List (String × List ℚ) :=
  [("modelA_z", [1]), ("modelB_z", [2])]

/-- Concrete `rsa` dictionary for the C7 witness. -/
def cexRsa : List (String × List (String × List ℚ)) := [("score", cexRsaData)]

/-- The `plot_bar` outcome on the C7 witness input. -/
def cexPlotR : PlotBarResult :=
  ⟨["modelA", "modelB"], [], some (pairwiseRows cexTT "score" cexRsaData)⟩

/-- C7 witness: `plot_bar` with `report_t=True` on two concrete conditions
returns the statistics table with the stated shape. -/
theorem C7_pairwise_stats_witness :
    (plot_bar true false false cexTT (fun _ => PVal.nan) "score" cexRsa =
      .ok cexPlotR) ∧
    ((cexPlotR.stats = none ↔ (true = false ∧ false = false)) ∧
     ((true || false) = true →
      ∃ data rows, lookupA cexRsa "score" = some data ∧
        cexPlotR.stats = some rows ∧
        rows.length = data.length * data.length ∧
        (∀ i j, i < data.length → j < data.length →
            rows[i * data.length + j]? =
              some (mkPairRow cexTT "score" data ((data.map (·.1)).getD i "")
                ((data.map (·.1)).getD j ""))) ∧
        (∀ n ∈ data.map (·.1), mkPairRow cexTT "score" data n n ∈ rows) ∧
        (∀ row ∈ rows, ∃ n1 ∈ data.map (·.1), ∃ n2 ∈ data.map (·.1),
            row = mkPairRow cexTT "score" data n1 n2 ∧
            row.tval =
              (cexTT ((lookupA data n1).getD [])
                ((lookupA data n2).getD [])).1 ∧
            row.pval =
              (cexTT ((lookupA data n1).getD [])
                ((lookupA data n2).getD [])).2))) :=
  ⟨rfl, C7_pairwise_stats true false false cexTT (fun _ => PVal.nan)
    "score" cexRsa cexPlotR rfl⟩

/-! ### Helper lemmas for the workflow assertions -/

lemma sortStrs_perm (l : List String) : (sortStrs l).Perm l :=
  List.perm_insertionSort _ l

lemma mem_of_sortStrs_eq {a b : List String}
    (h : sortStrs a = sortStrs b) {x : String} (hx : x ∈ a) : x ∈ b := by
  have h1 : x ∈ sortStrs a := (sortStrs_perm a).mem_iff.mpr hx
  rw [h] at h1
  exact (sortStrs_perm b).mem_iff.mp h1

lemma lookupA_isSome_of_mem {β : Type} :
    ∀ (l : List (String × β)) (x : String), x ∈ l.map (·.1) →
      ∃ v, lookupA l x = some v
  | [], x, h => by simp at h
  | (k, v) :: rest, x, h => by
      by_cases hk : k == x
      · exact ⟨v, by unfold lookupA; rw [if_pos hk]⟩
      · have hx : x ∈ rest.map (·.1) := by
          rw [List.map_cons] at h
          rcases List.mem_cons.mp h with he | hm
          · exact absurd (beq_iff_eq.mpr he.symm) hk
          · exact hm
        obtain ⟨v', hv'⟩ := lookupA_isSome_of_mem rest x hx
        exact ⟨v', by unfold lookupA; rw [if_neg hk]; exact hv'⟩

lemma checkDims_dim_error {Mat : Type}
    (latentTrain : List (String × EmbArray Mat)) :
    ∀ keys : List (String × EmbArray Mat),
      (∀ p ∈ keys, ∃ tra, lookupA latentTrain p.1 = some tra) →
      (∃ p ∈ keys, ∃ tra, lookupA latentTrain p.1 = some tra ∧
          tra.latentDim ≠ p.2.latentDim) →
      checkDims latentTrain keys =
        .error "The train and test data must be generated by the same model."
  | [], _, hbad => by simp at hbad
  | p :: rest, hlook, hbad => by
      obtain ⟨tra, htra⟩ := hlook p (List.mem_cons_self p rest)
      unfold checkDims
      rw [htra]
      simp only [checkDimsHead]
      by_cases hd : tra.latentDim ≠ p.2.latentDim
      · rw [if_pos hd]
      · rw [if_neg hd]
        have hrest : ∃ p' ∈ rest, ∃ tra', lookupA latentTrain p'.1 =
            some tra' ∧ tra'.latentDim ≠ p'.2.latentDim := by
          obtain ⟨p', hp', tra', htra', hne⟩ := hbad
          rcases List.mem_cons.mp hp' with he | hm
          · subst he
            rw [htra] at htra'
            injection htra' with he'
            subst he'
            exact absurd hne hd
          · exact ⟨p', hm, tra', htra', hne⟩
        rw [checkDims_dim_error latentTrain rest
          (fun p' hp' => hlook p' (List.mem_cons_of_mem p hp')) hrest]
        rfl

/-- C9: whenever the latent `.npz` key sets differ (as sorted lists),
or the metadata column sets differ, or some key's train and test arrays
differ in their final latent dimension, `benchmark_pred_exp` stops with
one of its three `AssertionError` messages, with an empty event trace —
so no model was fitted and no output file was written. -/
theorem C9_assertions {Mat : Type} (inp : BenchInput Mat)
    (oracle : MLOracle Mat)
    (h : sortStrs (inp.latentTest.map (·.1)) ≠
           sortStrs (inp.latentTrain.map (·.1)) ∨
         sortStrs inp.metaTestCols ≠ sortStrs inp.metaTrainCols ∨
         (∃ p ∈ inp.latentTest, ∃ tra,
            lookupA inp.latentTrain p.1 = some tra ∧
            tra.latentDim ≠ p.2.latentDim)) :
    ∃ msg, benchmark_pred_exp inp oracle = ([], .error msg) ∧
      (msg = "latent data must have the same keys" ∨
       msg = "metadata must have the same columns." ∨
       msg = "The train and test data must be generated by the same model.") := by
  unfold benchmark_pred_exp
  by_cases hk : sortStrs (inp.latentTest.map (·.1)) ≠
      sortStrs (inp.latentTrain.map (·.1))
  · rw [if_pos hk]
    exact ⟨_, rfl, Or.inl rfl⟩
  · rw [if_neg hk]
    have hkeq := not_not.mp hk
    by_cases hc : sortStrs inp.metaTestCols ≠ sortStrs inp.metaTrainCols
    · rw [if_pos hc]
      exact ⟨_, rfl, Or.inr (Or.inl rfl)⟩
    · rw [if_neg hc]
      rcases h with hbad | hbad | hbad
      · exact absurd hbad hk
      · exact absurd hbad hc
      · have hlook : ∀ p ∈ inp.latentTest, ∃ tra,
            lookupA inp.latentTrain p.1 = some tra := by
          intro p hp
          refine lookupA_isSome_of_mem inp.latentTrain p.1 ?_
          exact mem_of_sortStrs_eq hkeq (List.mem_map_of_mem (·.1) hp)
        rw [checkDims_dim_error inp.latentTrain inp.latentTest hlook hbad]
        exact ⟨_, rfl, Or.inr (Or.inr rfl)⟩

/-- A tiny embedding array used in the concrete workflow runs. -/
def cexEmb : EmbArray Unit := ⟨[()], 4⟩

/-- A concrete workflow input whose latent key sets differ. -/
def cexBadInput : BenchInput Unit :=
  { dataset := "hbn", outdir := "out",
    latentTest := [("ae_a", cexEmb)],
    latentTrain := [("vae_b", cexEmb)],
    metaTestCols := ["age"], metaTrainCols := ["age"],
    yTrain := fun _ => .strs ["x"], yTest := fun _ => .strs ["x"] }

/-- A trivial oracle for the concrete workflow runs. -/
def cexOracle : MLOracle Unit :=
  { runDraw := fun _ _ _ _ _ _ _ => ⟨0, 0, "best", 0⟩,
    tt := fun _ _ => (0, PVal.val 0),
    pvalOf := fun _ => PVal.val 0 }

/-- C9 witness: on an input with mismatching latent keys the workflow
stops with an assertion message and an empty trace. -/
theorem C9_assertions_witness :
    (sortStrs (cexBadInput.latentTest.map (·.1)) ≠
      sortStrs (cexBadInput.latentTrain.map (·.1))) ∧
    (∃ msg, benchmark_pred_exp cexBadInput cexOracle = ([], .error msg) ∧
      (msg = "latent data must have the same keys" ∨
       msg = "metadata must have the same columns." ∨
       msg = "The train and test data must be generated by the same model.")) :=
  ⟨by decide, C9_assertions cexBadInput cexOracle (Or.inl (by decide))⟩

/-! ### Inversion of a successful workflow run -/

lemma mapME_ok_forall {α β : Type} {f : α → Except String β} :
    ∀ {l : List α} {ys : List β}, mapME f l = .ok ys →
      ∀ y ∈ ys, ∃ x ∈ l, f x = .ok y
  | [], ys, h, y, hy => by
      unfold mapME at h
      injection h with h'
      subst h'
      simp at hy
  | a :: l, ys, h, y, hy => by
      unfold mapME at h
      cases hf : f a with
      | error e =>
          rw [hf] at h
          simp at h
      | ok b =>
          rw [hf] at h
          cases hm : mapME f l with
          | error e =>
              rw [hm] at h
              simp at h
          | ok bs =>
              rw [hm] at h
              have h' : Except.ok (b :: bs) = Except.ok ys := h
              injection h' with h''
              subst h''
              rcases List.mem_cons.mp hy with he | hmem
              · exact ⟨a, List.mem_cons_self a l, by rw [hf, he]⟩
              · obtain ⟨x, hx, hfx⟩ := mapME_ok_forall hm y hmem
                exact ⟨x, List.mem_cons_of_mem a hx, hfx⟩

lemma benchmark_ok_inv {Mat : Type} {inp : BenchInput Mat}
    {oracle : MLOracle Mat} {tr : List (Event Mat)} {out : BenchOutput}
    (h : benchmark_pred_exp inp oracle = (tr, .ok out)) :
    ∃ nOpt evs pr plots,
      checkDims inp.latentTrain inp.latentTest = .ok nOpt ∧
      runQnames oracle (demoFor inp.dataset) inp.yTrain inp.yTest
        inp.latentTrain inp.latentTest (nOpt.getD 0) inp.metaTrainCols =
        (evs, .ok pr) ∧
      mapME (fun q => plot_bar false false false oracle.tt oracle.pvalOf q
        pr.1) inp.metaTrainCols = .ok plots ∧
      out = ⟨pr.1, pr.2, plots, benchWrites inp pr plots⟩ ∧
      tr = evs ++ (benchWrites inp pr plots).map .write := by
  unfold benchmark_pred_exp at h
  by_cases h1 : sortStrs (inp.latentTest.map (·.1)) ≠
      sortStrs (inp.latentTrain.map (·.1))
  · rw [if_pos h1] at h
    simp at h
  · rw [if_neg h1] at h
    by_cases h2 : sortStrs inp.metaTestCols ≠ sortStrs inp.metaTrainCols
    · rw [if_pos h2] at h
      simp at h
    · rw [if_neg h2] at h
      cases hd : checkDims inp.latentTrain inp.latentTest with
      | error e =>
          rw [hd] at h
          simp [benchDims] at h
      | ok nOpt =>
          rw [hd] at h
          simp only [benchDims] at h
          cases hq : runQnames oracle (demoFor inp.dataset) inp.yTrain
              inp.yTest inp.latentTrain inp.latentTest (nOpt.getD 0)
              inp.metaTrainCols with
          | mk evs res =>
              rw [hq] at h
              cases res with
              | error e => simp [benchTrainResult] at h
              | ok pr =>
                  simp only [benchTrainResult] at h
                  cases hm : mapME (fun q => plot_bar false false false
                      oracle.tt oracle.pvalOf q pr.1) inp.metaTrainCols with
                  | error e =>
                      rw [hm] at h
                      simp [benchFinish] at h
                  | ok plots =>
                      rw [hm] at h
                      simp only [benchFinish] at h
                      rw [Prod.ext_iff] at h
                      obtain ⟨htr, hres⟩ := h
                      injection hres with hout
                      exact ⟨nOpt, evs, pr, plots, rfl, hq, hm, hout.symm,
                        htr.symm⟩

lemma plot_bar_all_false_inv {tt : List ℚ → List ℚ → ℚ × PVal}
    {pvalOf : List ℚ → PVal} {key : String}
    {rsa : List (String × List (String × List ℚ))} {r : PlotBarResult}
    (h : plot_bar false false false tt pvalOf key rsa = .ok r) :
    ∃ data, lookupA rsa key = some data ∧
      r = ⟨(data.map (·.1)).map stripLastComponent, [], none⟩ := by
  obtain ⟨data, hdata, ticks, drawn, hti, hdr, hr⟩ := plot_bar_ok_inv h
  have h0 : plotTicks false pvalOf data =
      .ok ((data.map (·.1)).map stripLastComponent) := rfl
  rw [h0] at hti
  have ht : ticks = (data.map (·.1)).map stripLastComponent :=
    (Except.ok.inj hti).symm
  have h1 : plotDrawn false tt data = .ok [] := rfl
  rw [h1] at hdr
  have hd : drawn = [] := (Except.ok.inj hdr).symm
  have hs : plotStats false false tt key data = none := rfl
  subst ht hd
  rw [hs] at hr
  exact ⟨data, hdata, hr⟩

/-- C5: on success the workflow's file writes are exactly the aggregated
per-draw test scores as tab-separated `predict_<dataset>.tsv` without an
index column, the per-draw cv summaries as tab-separated
`predict_cv_<dataset>.tsv` without an index column, and the figure image
`predict_<dataset>.png`, all inside `outdir`; every one of them appears
as a write event of the run's trace. -/
theorem C5_output_files {Mat : Type} (inp : BenchInput Mat)
    (oracle : MLOracle Mat) (tr : List (Event Mat)) (out : BenchOutput)
    (h : benchmark_pred_exp inp oracle = (tr, .ok out)) :
    out.writes =
      [OutFile.csv inp.outdir ("predict_" ++ inp.dataset ++ ".tsv") "\t"
        false (.scoresTable out.predictResults),
       OutFile.csv inp.outdir ("predict_cv_" ++ inp.dataset ++ ".tsv") "\t"
        false (.cvTable out.cvRows),
       OutFile.image inp.outdir ("predict_" ++ inp.dataset ++ ".png")] ∧
    (∀ f ∈ out.writes, Event.write f ∈ tr) := by
  obtain ⟨nOpt, evs, pr, plots, hdim, hrun, hplots, hout, htr⟩ :=
    benchmark_ok_inv h
  have hstats : plots.filterMap (·.stats) = [] := by
    rw [List.filterMap_eq_nil_iff]
    intro p hp
    obtain ⟨q, hq, hfq⟩ := mapME_ok_forall hplots p hp
    obtain ⟨data, _, hr⟩ := plot_bar_all_false_inv hfq
    rw [hr]
  subst hout
  constructor
  · show benchWrites inp pr plots = _
    unfold benchWrites
    rw [hstats]
    simp [predictTsv, cvTsv, predictPng]
  · intro f hf
    subst htr
    exact List.mem_append_right _ (List.mem_map_of_mem _ hf)

/-- C1 (amended): on success every target's bar plot is drawn WITHOUT
significance markers: `benchmark_pred_exp` calls `plot_bar` with
`do_one_sample_stars=False` and with `report_t`/`do_pairwise_stars` at
their default `False`, so no pairwise star is drawn, no statistics table
is produced, and the tick labels are the plain stripped condition names
with no one-sample marker appended. -/
theorem C1_no_markers {Mat : Type} (inp : BenchInput Mat)
    (oracle : MLOracle Mat) (tr : List (Event Mat)) (out : BenchOutput)
    (h : benchmark_pred_exp inp oracle = (tr, .ok out)) :
    ∀ p ∈ out.plots, p.drawnPairs = [] ∧ p.stats = none ∧
      ∃ key data, lookupA out.predictResults key = some data ∧
        p.tickLabels = (data.map (·.1)).map stripLastComponent := by
  obtain ⟨nOpt, evs, pr, plots, hdim, hrun, hplots, hout, htr⟩ :=
    benchmark_ok_inv h
  subst hout
  intro p hp
  obtain ⟨q, hq, hfq⟩ := mapME_ok_forall hplots p hp
  obtain ⟨data, hdata, hr⟩ := plot_bar_all_false_inv hfq
  subst hr
  exact ⟨rfl, rfl, q, data, hdata, rfl⟩

/-- A concrete valid workflow input: two embeddings, one target column,
one resample draw. -/
def cexInput : BenchInput Unit :=
  { dataset := "hbn", outdir := "out",
    latentTest := [("ae_a", cexEmb), ("vae_b", cexEmb)],
    latentTrain := [("ae_a", cexEmb), ("vae_b", cexEmb)],
    metaTestCols := ["age"], metaTrainCols := ["age"],
    yTrain := fun _ => .strs ["x"], yTest := fun _ => .strs ["x"] }

/-- The workflow run on `cexInput`. -/
def cexRun : List (Event Unit) × Except String BenchOutput :=
  benchmark_pred_exp cexInput cexOracle

/-- The successful output of that run. -/
def cexOut : BenchOutput :=
  match cexRun.2 with
  | .ok out => out
  | .error _ => ⟨[], [], [], []⟩

/-- C1 counterexample: on a concrete valid input the workflow succeeds,
produces one bar plot for the one target variable, and that plot carries
no pairwise star annotations, no statistics table, and no one-sample
markers in its tick labels — so it is false that every target's bars are
annotated with pairwise and one-sample significance markers. -/
theorem C1_markers_counterexample :
    (cexRun.2.map fun out => out.plots.map fun p =>
        (p.tickLabels, p.drawnPairs, p.stats)) =
      .ok [((["ae", "vae"] : List String),
            ([] : List (String × String × String)),
            (none : Option (List PairRow)))] ∧
    (cexRun.2.map fun out =>
        decide (∀ p ∈ out.plots, p.drawnPairs ≠ [])) = .ok false :=
  ⟨rfl, rfl⟩

/-- C1 witness: the no-markers theorem applied to the concrete run. -/
theorem C1_no_markers_witness :
    (benchmark_pred_exp cexInput cexOracle = (cexRun.1, .ok cexOut)) ∧
    (∀ p ∈ cexOut.plots, p.drawnPairs = [] ∧ p.stats = none ∧
      ∃ key data, lookupA cexOut.predictResults key = some data ∧
        p.tickLabels = (data.map (·.1)).map stripLastComponent) :=
  ⟨rfl, C1_no_markers cexInput cexOracle cexRun.1 cexOut rfl⟩

/-- C5 witness: the output-files theorem applied to the concrete run. -/
theorem C5_output_files_witness :
    (benchmark_pred_exp cexInput cexOracle = (cexRun.1, .ok cexOut)) ∧
    (cexOut.writes =
      [OutFile.csv cexInput.outdir ("predict_" ++ cexInput.dataset ++ ".tsv")
        "\t" false (.scoresTable cexOut.predictResults),
       OutFile.csv cexInput.outdir
        ("predict_cv_" ++ cexInput.dataset ++ ".tsv") "\t" false
        (.cvTable cexOut.cvRows),
       OutFile.image cexInput.outdir
        ("predict_" ++ cexInput.dataset ++ ".png")] ∧
     ∀ f ∈ cexOut.writes, Event.write f ∈ cexRun.1) :=
  ⟨rfl, C5_output_files cexInput cexOracle cexRun.1 cexOut rfl⟩

/-! ### Where every fit event comes from -/

lemma fitLoop_mem {Mat : Type}
    (step : ℕ → Except String (Event Mat × CVResult)) :
    ∀ (l : List ℕ) (ev : Event Mat), ev ∈ (fitLoop step l).1 →
      ∃ i ∈ l, ∃ r, step i = .ok (ev, r)
  | [], ev, h => by simp [fitLoop] at h
  | i :: rest, ev, h => by
      unfold fitLoop at h
      cases hs : step i with
      | error e =>
          rw [hs] at h
          simp [fitLoopCont] at h
      | ok er =>
          rw [hs] at h
          cases hrest : fitLoop step rest with
          | mk evs res =>
              rw [hrest] at h
              have h' : ev ∈ er.1 :: evs := by
                cases res with
                | error e => exact h
                | ok rs => exact h
              rcases List.mem_cons.mp h' with he | hm
              · subst he
                exact ⟨i, List.mem_cons_self i rest, er.2, hs⟩
              · have hm' : ev ∈ (fitLoop step rest).1 := by
                  rw [hrest]
                  exact hm
                obtain ⟨j, hj, r, hr⟩ := fitLoop_mem step rest ev hm'
                exact ⟨j, List.mem_cons_of_mem i hj, r, hr⟩

lemma drawStep_ok_inv {Mat : Type} {oracle : MLOracle Mat}
    {demoOpt : Option (List String)} {yTr yTe : LabelVec}
    {qn k : String} {tds teds : List Mat} {i : ℕ} {ev : Event Mat}
    {r : CVResult}
    (h : drawStep oracle demoOpt yTr yTe qn k tds teds i = .ok (ev, r)) :
    ∃ pn demo trd ted, get_predictor yTr = some pn ∧ demoOpt = some demo ∧
      tds[i]? = some trd ∧ teds[i]? = some ted ∧
      ev = .fit qn k i (gridFor pn.2.2) msssCfg demo trd ted ∧
      r = oracle.runDraw (gridFor pn.2.2) msssCfg demo yTr yTe trd ted := by
  unfold drawStep at h
  cases hp : get_predictor yTr with
  | none =>
      rw [hp] at h
      simp at h
  | some pn =>
      rw [hp] at h
      cases demoOpt with
      | none => simp at h
      | some demo =>
          cases ht : tds[i]? with
          | none =>
              rw [ht] at h
              cases hte : teds[i]? with
              | none => rw [hte] at h; simp at h
              | some ted => rw [hte] at h; simp at h
          | some trd =>
              rw [ht] at h
              cases hte : teds[i]? with
              | none => rw [hte] at h; simp at h
              | some ted =>
                  rw [hte] at h
                  have h' : Except.ok
                      ((Event.fit qn k i (gridFor pn.2.2) msssCfg demo trd
                          ted : Event Mat),
                        oracle.runDraw (gridFor pn.2.2) msssCfg demo yTr yTe
                          trd ted) = Except.ok (ev, r) := h
                  injection h' with h''
                  rw [Prod.ext_iff] at h''
                  obtain ⟨he, hr⟩ := h''
                  exact ⟨pn, demo, trd, ted, rfl, rfl, rfl, rfl, he.symm,
                    hr.symm⟩

lemma runKeys_mem {Mat : Type} (oracle : MLOracle Mat)
    (demoOpt : Option (List String)) (yTr yTe : LabelVec)
    (latentTrain : List (String × EmbArray Mat)) (n : ℕ) (qn : String) :
    ∀ (keys : List (String × EmbArray Mat)) (ev : Event Mat),
      ev ∈ (runKeys oracle demoOpt yTr yTe latentTrain n qn keys).1 →
      ∃ p ∈ keys, ∃ trainArr, lookupA latentTrain p.1 = some trainArr ∧
        ev ∈ (runPair oracle demoOpt yTr yTe qn p.1 trainArr p.2 n).1
  | [], ev, h => by simp [runKeys] at h
  | p :: rest, ev, h => by
      unfold runKeys at h
      cases hl : lookupA latentTrain p.1 with
      | none =>
          rw [hl] at h
          simp [runKeysStep] at h
      | some trainArr =>
          rw [hl] at h
          rw [show runKeysStep oracle demoOpt yTr yTe n qn p
              (runKeys oracle demoOpt yTr yTe latentTrain n qn rest)
              (some trainArr) =
            runKeysCont qn p
              (runPair oracle demoOpt yTr yTe qn p.1 trainArr p.2 n)
              (runKeys oracle demoOpt yTr yTe latentTrain n qn rest)
            from rfl] at h
          cases hrp : runPair oracle demoOpt yTr yTe qn p.1 trainArr p.2 n
            with
          | mk evs res =>
              rw [hrp] at h
              cases res with
              | error e =>
                  have h' : ev ∈ evs := h
                  refine ⟨p, List.mem_cons_self p rest, trainArr, hl, ?_⟩
                  rw [hrp]
                  exact h'
              | ok results =>
                  cases hrk : runKeys oracle demoOpt yTr yTe latentTrain n
                      qn rest with
                  | mk evs2 res2 =>
                      rw [hrk] at h
                      have h' : ev ∈ evs ++ evs2 := by
                        cases res2 with
                        | error e => exact h
                        | ok sr => exact h
                      rcases List.mem_append.mp h' with hm | hm
                      · refine ⟨p, List.mem_cons_self p rest, trainArr, hl,
                          ?_⟩
                        rw [hrp]
                        exact hm
                      · have hm' : ev ∈ (runKeys oracle demoOpt yTr yTe
                            latentTrain n qn rest).1 := by
                          rw [hrk]
                          exact hm
                        obtain ⟨p', hp', tra, htra, hmem⟩ :=
                          runKeys_mem oracle demoOpt yTr yTe latentTrain n
                            qn rest ev hm'
                        exact ⟨p', List.mem_cons_of_mem p hp', tra, htra,
                          hmem⟩

lemma runQnames_mem {Mat : Type} (oracle : MLOracle Mat)
    (demoOpt : Option (List String)) (yTrain yTest : String → LabelVec)
    (latentTrain latentTest : List (String × EmbArray Mat)) (n : ℕ) :
    ∀ (qnames : List String) (ev : Event Mat),
      ev ∈ (runQnames oracle demoOpt yTrain yTest latentTrain latentTest n
        qnames).1 →
      ∃ q ∈ qnames, ev ∈ (runKeys oracle demoOpt (yTrain q) (yTest q)
        latentTrain n q latentTest).1
  | [], ev, h => by simp [runQnames] at h
  | qn :: rest, ev, h => by
      unfold runQnames at h
      cases hrk : runKeys oracle demoOpt (yTrain qn) (yTest qn) latentTrain
          n qn latentTest with
      | mk evs res =>
          rw [hrk] at h
          cases res with
          | error e =>
              have h' : ev ∈ evs := h
              refine ⟨qn, List.mem_cons_self qn rest, ?_⟩
              rw [hrk]
              exact h'
          | ok sr =>
              cases hrq : runQnames oracle demoOpt yTrain yTest latentTrain
                  latentTest n rest with
              | mk evs2 res2 =>
                  rw [hrq] at h
                  have h' : ev ∈ evs ++ evs2 := by
                    cases res2 with
                    | error e => exact h
                    | ok ar => exact h
                  rcases List.mem_append.mp h' with hm | hm
                  · refine ⟨qn, List.mem_cons_self qn rest, ?_⟩
                    rw [hrk]
                    exact hm
                  · have hm' : ev ∈ (runQnames oracle demoOpt yTrain yTest
                        latentTrain latentTest n rest).1 := by
                      rw [hrq]
                      exact hm
                    obtain ⟨q, hq, hmem⟩ := runQnames_mem oracle demoOpt
                      yTrain yTest latentTrain latentTest n rest ev hm'
                    exact ⟨q, List.mem_cons_of_mem qn hq, hmem⟩

lemma benchmark_fit_mem {Mat : Type} {inp : BenchInput Mat}
    {oracle : MLOracle Mat} {tr : List (Event Mat)}
    {res : Except String BenchOutput}
    (h : benchmark_pred_exp inp oracle = (tr, res))
    {ev : Event Mat} (hev : ev ∈ tr)
    (hfit : ∀ f : OutFile, ev ≠ .write f) :
    ∃ nOpt, checkDims inp.latentTrain inp.latentTest = .ok nOpt ∧
      ev ∈ (runQnames oracle (demoFor inp.dataset) inp.yTrain inp.yTest
        inp.latentTrain inp.latentTest (nOpt.getD 0) inp.metaTrainCols).1 := by
  unfold benchmark_pred_exp at h
  by_cases h1 : sortStrs (inp.latentTest.map (·.1)) ≠
      sortStrs (inp.latentTrain.map (·.1))
  · rw [if_pos h1] at h
    injection h with htr hres
    rw [← htr] at hev
    simp at hev
  · rw [if_neg h1] at h
    by_cases h2 : sortStrs inp.metaTestCols ≠ sortStrs inp.metaTrainCols
    · rw [if_pos h2] at h
      injection h with htr hres
      rw [← htr] at hev
      simp at hev
    · rw [if_neg h2] at h
      cases hd : checkDims inp.latentTrain inp.latentTest with
      | error e =>
          rw [hd] at h
          simp only [benchDims] at h
          injection h with htr hres
          rw [← htr] at hev
          simp at hev
      | ok nOpt =>
          rw [hd] at h
          simp only [benchDims] at h
          refine ⟨nOpt, rfl, ?_⟩
          cases hq : runQnames oracle (demoFor inp.dataset) inp.yTrain
              inp.yTest inp.latentTrain inp.latentTest (nOpt.getD 0)
              inp.metaTrainCols with
          | mk evs res' =>
              rw [hq] at h
              cases res' with
              | error e =>
                  simp only [benchTrainResult] at h
                  injection h with htr hres
                  rw [← htr] at hev
                  exact hev
              | ok pr =>
                  simp only [benchTrainResult] at h
                  cases hm : mapME (fun q => plot_bar false false false
                      oracle.tt oracle.pvalOf q pr.1) inp.metaTrainCols with
                  | error e =>
                      rw [hm] at h
                      simp only [benchFinish] at h
                      injection h with htr hres
                      rw [← htr] at hev
                      rcases List.mem_append.mp hev with hm1 | hm1
                      · exact hm1
                      · exfalso
                        rcases List.mem_cons.mp hm1 with he | he
                        · exact hfit _ he
                        · rcases List.mem_cons.mp he with he2 | he2
                          · exact hfit _ he2
                          · simp at he2
                  | ok plots =>
                      rw [hm] at h
                      simp only [benchFinish] at h
                      injection h with htr hres
                      rw [← htr] at hev
                      rcases List.mem_append.mp hev with hm1 | hm1
                      · exact hm1
                      · exfalso
                        obtain ⟨f, _, hf⟩ := List.mem_map.mp hm1
                        exact hfit f hf.symm

lemma gridFor_alphas (name : String) : (gridFor name).alphas = ridgeAlphas := by
  unfold gridFor
  split <;> rfl

lemma gridFor_solvers (name : String) :
    (gridFor name).solvers = ridgeSolvers := by
  unfold gridFor
  split <;> rfl

lemma ridgeAlphas_logspace :
    ridgeAlphas =
      (List.range 7).map (fun (j : ℕ) => (10 : ℚ) ^ ((j : ℤ) - 2)) := by
  show ([1/100, 1/10, 1, 10, 100, 1000, 10000] : List ℚ) = _
  rw [show List.range 7 = [0, 1, 2, 3, 4, 5, 6] from rfl]
  simp only [List.map_cons, List.map_nil]
  norm_num

/-- C6: every fit event of any `benchmark_pred_exp` run carries the
`MultilabelStratifiedShuffleSplit(n_splits=5, test_size=0.2,
random_state=42)` splitter stratified on the dataset's demographic
columns, and a grid-search over ridge `alpha` in `logspace(-2, 4, 7)` and
the five solvers, the parameter names prefixed with `estimator__` exactly
when the scorer name chosen for the target's labels is "AUC ROC". -/
theorem C6_grid_and_splitter {Mat : Type} (inp : BenchInput Mat)
    (oracle : MLOracle Mat) (tr : List (Event Mat))
    (res : Except String BenchOutput)
    (h : benchmark_pred_exp inp oracle = (tr, res))
    (q k : String) (i : ℕ) (g : ParamGrid) (s : SplitterCfg)
    (d : List String) (trd ted : Mat)
    (he : Event.fit q k i g s d trd ted ∈ tr) :
    s = ⟨5, 1/5, 42⟩ ∧
    demoFor inp.dataset = some d ∧
    (inp.dataset = "hbn" → d = ["site", "age", "sex"]) ∧
    (inp.dataset = "euaims" → d = ["site", "age", "sex", "fsiq", "asd"]) ∧
    g.alphas = (List.range 7).map (fun (j : ℕ) => (10 : ℚ) ^ ((j : ℤ) - 2)) ∧
    g.solvers = ["auto", "svd", "lsqr", "sparse_cg", "saga"] ∧
    ∃ pn, get_predictor (inp.yTrain q) = some pn ∧ g = gridFor pn.2.2 ∧
      (pn.2.2 = "AUC ROC" →
        g.alphaName = "estimator__alpha" ∧
        g.solverName = "estimator__solver") ∧
      (pn.2.2 ≠ "AUC ROC" →
        g.alphaName = "alpha" ∧ g.solverName = "solver") := by
  obtain ⟨nOpt, hdim, hmem⟩ :=
    benchmark_fit_mem h he (fun f hc => Event.noConfusion hc)
  obtain ⟨q', hq', hkmem⟩ := runQnames_mem oracle (demoFor inp.dataset)
    inp.yTrain inp.yTest inp.latentTrain inp.latentTest (nOpt.getD 0)
    inp.metaTrainCols _ hmem
  obtain ⟨p, hp, trainArr, htra, hpmem⟩ := runKeys_mem oracle
    (demoFor inp.dataset) (inp.yTrain q') (inp.yTest q') inp.latentTrain
    (nOpt.getD 0) q' inp.latentTest _ hkmem
  obtain ⟨idx, hidx, r, hstep⟩ := fitLoop_mem _ _ _ hpmem
  obtain ⟨pn, demo, trd', ted', hpn, hdemo, _, _, hev, _⟩ :=
    drawStep_ok_inv hstep
  injection hev with hq1 hk1 hi1 hg1 hs1 hd1 htr1 hte1
  subst hq1
  subst hd1
  refine ⟨hs1.trans rfl, hdemo, ?_, ?_, ?_, ?_, pn, hpn, hg1, ?_, ?_⟩
  · intro hds
    have h' := hdemo
    rw [hds] at h'
    rw [show demoFor "hbn" = some ["site", "age", "sex"] from rfl] at h'
    exact (Option.some.inj h').symm
  · intro hds
    have h' := hdemo
    rw [hds] at h'
    rw [show demoFor "euaims" =
      some ["site", "age", "sex", "fsiq", "asd"] from rfl] at h'
    exact (Option.some.inj h').symm
  · rw [hg1, gridFor_alphas, ridgeAlphas_logspace]
  · rw [hg1, gridFor_solvers]
    rfl
  · intro hn
    rw [hg1, hn]
    exact ⟨rfl, rfl⟩
  · intro hn
    rw [hg1]
    unfold gridFor
    rw [if_neg (by simp [hn])]
    exact ⟨rfl, rfl⟩

/-- C6 witness: the grid/splitter theorem applied to the first fit event
of the concrete run (dataset "hbn", string labels, so scorer "AUC ROC"). -/
theorem C6_grid_and_splitter_witness :
    (Event.fit "age" "ae_a" 0 (gridFor "AUC ROC") msssCfg
        ["site", "age", "sex"] () () ∈ cexRun.1) ∧
    (msssCfg = ⟨5, 1/5, 42⟩ ∧
     demoFor cexInput.dataset = some ["site", "age", "sex"] ∧
     (cexInput.dataset = "hbn" →
        ["site", "age", "sex"] = ["site", "age", "sex"]) ∧
     (cexInput.dataset = "euaims" →
        ["site", "age", "sex"] = ["site", "age", "sex", "fsiq", "asd"]) ∧
     (gridFor "AUC ROC").alphas =
        (List.range 7).map (fun (j : ℕ) => (10 : ℚ) ^ ((j : ℤ) - 2)) ∧
     (gridFor "AUC ROC").solvers =
        ["auto", "svd", "lsqr", "sparse_cg", "saga"] ∧
     ∃ pn, get_predictor (cexInput.yTrain "age") = some pn ∧
        gridFor "AUC ROC" = gridFor pn.2.2 ∧
        (pn.2.2 = "AUC ROC" →
          (gridFor "AUC ROC").alphaName = "estimator__alpha" ∧
          (gridFor "AUC ROC").solverName = "estimator__solver") ∧
        (pn.2.2 ≠ "AUC ROC" →
          (gridFor "AUC ROC").alphaName = "alpha" ∧
          (gridFor "AUC ROC").solverName = "solver")) := by
  have hmem : Event.fit "age" "ae_a" 0 (gridFor "AUC ROC") msssCfg
      ["site", "age", "sex"] () () ∈ cexRun.1 := List.Mem.head _
  exact ⟨hmem, C6_grid_and_splitter cexInput cexOracle cexRun.1 cexRun.2 rfl
    "age" "ae_a" 0 (gridFor "AUC ROC") msssCfg ["site", "age", "sex"] () ()
    hmem⟩

/-! ### The successful training path, characterised -/

/-- The fit events of the draw loop for one `(target, key)` pair. -/
def fitEventsFor {Mat : Type} [Inhabited Mat]
    (pn : Predictor × String × String) (demo : List String) (qn k : String)
    (trainArr testArr : EmbArray Mat) (n : ℕ) : List (Event Mat) :=
  (List.range n).map fun i =>
    .fit qn k i (gridFor pn.2.2) msssCfg demo (trainArr.draws.getD i default)
      (testArr.draws.getD i default)

/-- The per-draw grid-search outcomes for one `(target, key)` pair: one
oracle call per draw index, on the train and test draws of that index. -/
def drawResultsFor {Mat : Type} [Inhabited Mat] (oracle : MLOracle Mat)
    (pn : Predictor × String × String) (demo : List String)
    (yTr yTe : LabelVec) (trainArr testArr : EmbArray Mat) (n : ℕ) :
    List CVResult :=
  (List.range n).map fun i =>
    oracle.runDraw (gridFor pn.2.2) msssCfg demo yTr yTe
      (trainArr.draws.getD i default) (testArr.draws.getD i default)

lemma fitLoop_ok {Mat : Type}
    (step : ℕ → Except String (Event Mat × CVResult))
    (g : ℕ → Event Mat × CVResult) :
    ∀ l : List ℕ, (∀ i ∈ l, step i = .ok (g i)) →
      fitLoop step l = (l.map fun i => (g i).1, .ok (l.map fun i => (g i).2))
  | [], _ => rfl
  | i :: rest, h => by
      unfold fitLoop
      rw [h i (List.mem_cons_self i rest),
        fitLoop_ok step g rest fun j hj => h j (List.mem_cons_of_mem i hj)]
      rfl

lemma drawStep_ok {Mat : Type} [Inhabited Mat] (oracle : MLOracle Mat)
    (demo : List String) (yTr yTe : LabelVec) (qn k : String)
    (tds teds : List Mat) (i : ℕ) (pn : Predictor × String × String)
    (hp : get_predictor yTr = some pn)
    (h1 : i < tds.length) (h2 : i < teds.length) :
    drawStep oracle (some demo) yTr yTe qn k tds teds i =
      .ok (.fit qn k i (gridFor pn.2.2) msssCfg demo (tds.getD i default)
            (teds.getD i default),
           oracle.runDraw (gridFor pn.2.2) msssCfg demo yTr yTe
            (tds.getD i default) (teds.getD i default)) := by
  unfold drawStep
  rw [hp]
  rw [List.getD_eq_getElem?_getD tds, List.getD_eq_getElem?_getD teds]
  rw [List.getElem?_eq_getElem h1, List.getElem?_eq_getElem h2]
  rfl

lemma runPair_ok {Mat : Type} [Inhabited Mat] (oracle : MLOracle Mat)
    (demo : List String) (yTr yTe : LabelVec) (qn k : String)
    (trainArr testArr : EmbArray Mat) (n : ℕ)
    (pn : Predictor × String × String)
    (hp : get_predictor yTr = some pn)
    (hl1 : n ≤ trainArr.draws.length) (hl2 : n ≤ testArr.draws.length) :
    runPair oracle (some demo) yTr yTe qn k trainArr testArr n =
      (fitEventsFor pn demo qn k trainArr testArr n,
       .ok (drawResultsFor oracle pn demo yTr yTe trainArr testArr n)) := by
  unfold runPair fitEventsFor drawResultsFor
  rw [fitLoop_ok (drawStep oracle (some demo) yTr yTe qn k trainArr.draws
      testArr.draws)
    (fun i =>
      (.fit qn k i (gridFor pn.2.2) msssCfg demo
        (trainArr.draws.getD i default) (testArr.draws.getD i default),
       oracle.runDraw (gridFor pn.2.2) msssCfg demo yTr yTe
        (trainArr.draws.getD i default) (testArr.draws.getD i default)))
    (List.range n)
    (fun i hi =>
      drawStep_ok oracle demo yTr yTe qn k trainArr.draws testArr.draws i pn
        hp (lt_of_lt_of_le (List.mem_range.mp hi) hl1)
        (lt_of_lt_of_le (List.mem_range.mp hi) hl2))]

lemma runKeys_ok {Mat : Type} [Inhabited Mat] (oracle : MLOracle Mat)
    (demo : List String) (yTr yTe : LabelVec)
    (latentTrain : List (String × EmbArray Mat)) (n : ℕ) (qn : String)
    (trainOf : String → EmbArray Mat) (pn : Predictor × String × String)
    (hp : get_predictor yTr = some pn) :
    ∀ keys : List (String × EmbArray Mat),
      (∀ p ∈ keys, lookupA latentTrain p.1 = some (trainOf p.1)) →
      (∀ p ∈ keys, n ≤ (trainOf p.1).draws.length ∧ n ≤ p.2.draws.length) →
      runKeys oracle (some demo) yTr yTe latentTrain n qn keys =
        (keys.flatMap fun p =>
            fitEventsFor pn demo qn p.1 (trainOf p.1) p.2 n,
         .ok (keys.map fun p => (p.1,
                (drawResultsFor oracle pn demo yTr yTe (trainOf p.1) p.2
                  n).map (·.testScore)),
              keys.flatMap fun p =>
                mkCvRows qn p.1
                  (drawResultsFor oracle pn demo yTr yTe (trainOf p.1) p.2
                    n)))
  | [], _, _ => rfl
  | p :: rest, hlook, hlen => by
      unfold runKeys
      rw [hlook p (List.mem_cons_self p rest)]
      rw [show runKeysStep oracle (some demo) yTr yTe n qn p
            (runKeys oracle (some demo) yTr yTe latentTrain n qn rest)
            (some (trainOf p.1)) =
          runKeysCont qn p
            (runPair oracle (some demo) yTr yTe qn p.1 (trainOf p.1) p.2 n)
            (runKeys oracle (some demo) yTr yTe latentTrain n qn rest)
          from rfl]
      rw [runPair_ok oracle demo yTr yTe qn p.1 (trainOf p.1) p.2 n pn hp
        (hlen p (List.mem_cons_self p rest)).1
        (hlen p (List.mem_cons_self p rest)).2]
      rw [runKeys_ok oracle demo yTr yTe latentTrain n qn trainOf pn hp rest
        (fun x hx => hlook x (List.mem_cons_of_mem p hx))
        (fun x hx => hlen x (List.mem_cons_of_mem p hx))]
      rfl

lemma runQnames_ok {Mat : Type} [Inhabited Mat] (oracle : MLOracle Mat)
    (demo : List String) (yTrain yTest : String → LabelVec)
    (latentTrain latentTest : List (String × EmbArray Mat)) (n : ℕ)
    (trainOf : String → EmbArray Mat)
    (pnOf : String → Predictor × String × String)
    (hlook : ∀ p ∈ latentTest, lookupA latentTrain p.1 = some (trainOf p.1))
    (hlen : ∀ p ∈ latentTest, n ≤ (trainOf p.1).draws.length ∧
      n ≤ p.2.draws.length)
    (hne : latentTest ≠ []) :
    ∀ qnames : List String,
      (∀ q ∈ qnames, get_predictor (yTrain q) = some (pnOf q)) →
      runQnames oracle (some demo) yTrain yTest latentTrain latentTest n
        qnames =
        (qnames.flatMap fun q => latentTest.flatMap fun p =>
            fitEventsFor (pnOf q) demo q p.1 (trainOf p.1) p.2 n,
         .ok (qnames.map fun q => (q, latentTest.map fun p => (p.1,
                (drawResultsFor oracle (pnOf q) demo (yTrain q) (yTest q)
                  (trainOf p.1) p.2 n).map (·.testScore))),
              qnames.flatMap fun q => latentTest.flatMap fun p =>
                mkCvRows q p.1 (drawResultsFor oracle (pnOf q) demo
                  (yTrain q) (yTest q) (trainOf p.1) p.2 n)))
  | [], _ => rfl
  | qn :: rest, hpn => by
      unfold runQnames
      rw [runKeys_ok oracle demo (yTrain qn) (yTest qn) latentTrain n qn
        trainOf (pnOf qn) (hpn qn (List.mem_cons_self qn rest)) latentTest
        hlook hlen]
      rw [runQnames_ok oracle demo yTrain yTest latentTrain latentTest n
        trainOf pnOf hlook hlen hne rest
        (fun q hq => hpn q (List.mem_cons_of_mem qn hq))]
      cases hlt : latentTest with
      | nil => exact absurd hlt hne
      | cons a as => rfl

lemma checkDims_ok {Mat : Type} (latentTrain : List (String × EmbArray Mat))
    (trainOf : String → EmbArray Mat) (n : ℕ) :
    ∀ keys : List (String × EmbArray Mat),
      (∀ p ∈ keys, lookupA latentTrain p.1 = some (trainOf p.1)) →
      (∀ p ∈ keys, (trainOf p.1).latentDim = p.2.latentDim) →
      (∀ p ∈ keys, (trainOf p.1).draws.length = n) →
      checkDims latentTrain keys =
        .ok (match keys with | [] => none | _ => some n)
  | [], _, _, _ => rfl
  | p :: rest, hlook, hdim, hlen => by
      unfold checkDims
      rw [hlook p (List.mem_cons_self p rest)]
      simp only [checkDimsHead]
      rw [if_neg (fun hc => hc (hdim p (List.mem_cons_self p rest)))]
      rw [checkDims_ok latentTrain trainOf n rest
        (fun x hx => hlook x (List.mem_cons_of_mem p hx))
        (fun x hx => hdim x (List.mem_cons_of_mem p hx))
        (fun x hx => hlen x (List.mem_cons_of_mem p hx))]
      cases rest with
      | nil =>
          simp only [checkDimsCont]
          rw [hlen p (List.mem_cons_self p [])]
      | cons b bs => rfl

lemma lookupA_map_self {β : Type} (g : String → β) :
    ∀ (l : List String) (q : String), q ∈ l →
      lookupA (l.map fun x => (x, g x)) q = some (g q)
  | [], q, h => by simp at h
  | a :: l, q, h => by
      rw [List.map_cons]
      show (if a == q then some (g a) else
        lookupA (l.map fun x => (x, g x)) q) = some (g q)
      by_cases ha : a == q
      · rw [if_pos ha, beq_iff_eq.mp ha]
      · rw [if_neg ha]
        refine lookupA_map_self g l q ?_
        rcases List.mem_cons.mp h with he | hm
        · exact absurd (beq_iff_eq.mpr he.symm) ha
        · exact hm

lemma plot_bar_all_false_run {tt : List ℚ → List ℚ → ℚ × PVal}
    {pvalOf : List ℚ → PVal} (q : String)
    (rsa : List (String × List (String × List ℚ)))
    (data : List (String × List ℚ)) (hl : lookupA rsa q = some data) :
    plot_bar false false false tt pvalOf q rsa =
      .ok ⟨(data.map (·.1)).map stripLastComponent, [], none⟩ := by
  unfold plot_bar
  rw [hl]
  rfl

lemma mapME_ok_map {α β : Type} (f : α → Except String β) (g : α → β) :
    ∀ l : List α, (∀ x ∈ l, f x = .ok (g x)) →
      mapME f l = .ok (l.map g)
  | [], _ => rfl
  | a :: l, h => by
      unfold mapME
      rw [h a (List.mem_cons_self a l),
        mapME_ok_map f g l (fun x hx => h x (List.mem_cons_of_mem a hx))]
      rfl

/-- All fit events of a fully successful run, in program order. -/
def benchEvs {Mat : Type} [Inhabited Mat] (inp : BenchInput Mat)
    (trainOf : String → EmbArray Mat)
    (pnOf : String → Predictor × String × String) (n : ℕ)
    (demo : List String) : List (Event Mat) :=
  inp.metaTrainCols.flatMap fun q => inp.latentTest.flatMap fun p =>
    fitEventsFor (pnOf q) demo q p.1 (trainOf p.1) p.2 n

/-- The `predict_results` dictionary of a fully successful run. -/
def benchScores {Mat : Type} [Inhabited Mat] (inp : BenchInput Mat)
    (oracle : MLOracle Mat) (trainOf : String → EmbArray Mat)
    (pnOf : String → Predictor × String × String) (n : ℕ)
    (demo : List String) : List (String × List (String × List ℚ)) :=
  inp.metaTrainCols.map fun q => (q, inp.latentTest.map fun p => (p.1,
    (drawResultsFor oracle (pnOf q) demo (inp.yTrain q) (inp.yTest q)
      (trainOf p.1) p.2 n).map (·.testScore)))

/-- The concatenated cv rows of a fully successful run. -/
def benchCvRows {Mat : Type} [Inhabited Mat] (inp : BenchInput Mat)
    (oracle : MLOracle Mat) (trainOf : String → EmbArray Mat)
    (pnOf : String → Predictor × String × String) (n : ℕ)
    (demo : List String) : List CvRow :=
  inp.metaTrainCols.flatMap fun q => inp.latentTest.flatMap fun p =>
    mkCvRows q p.1 (drawResultsFor oracle (pnOf q) demo (inp.yTrain q)
      (inp.yTest q) (trainOf p.1) p.2 n)

/-- The plots of a fully successful run: one unmarked bar plot per target. -/
def benchPlots {Mat : Type} (inp : BenchInput Mat) : List PlotBarResult :=
  inp.metaTrainCols.map fun _ =>
    ⟨(inp.latentTest.map (·.1)).map stripLastComponent, [], none⟩

lemma benchmark_success {Mat : Type} [Inhabited Mat] (inp : BenchInput Mat)
    (oracle : MLOracle Mat) (trainOf : String → EmbArray Mat)
    (pnOf : String → Predictor × String × String) (n : ℕ)
    (demo : List String)
    (hkeys : inp.latentTest.map (·.1) = inp.latentTrain.map (·.1))
    (hcols : inp.metaTestCols = inp.metaTrainCols)
    (hlook : ∀ p ∈ inp.latentTest,
      lookupA inp.latentTrain p.1 = some (trainOf p.1))
    (hdim : ∀ p ∈ inp.latentTest, (trainOf p.1).latentDim = p.2.latentDim)
    (hlen : ∀ p ∈ inp.latentTest, (trainOf p.1).draws.length = n ∧
      p.2.draws.length = n)
    (hdemo : demoFor inp.dataset = some demo)
    (hpn : ∀ q ∈ inp.metaTrainCols,
      get_predictor (inp.yTrain q) = some (pnOf q))
    (hne : inp.latentTest ≠ []) :
    benchmark_pred_exp inp oracle =
      (benchEvs inp trainOf pnOf n demo ++
        (benchWrites inp
          (benchScores inp oracle trainOf pnOf n demo,
           benchCvRows inp oracle trainOf pnOf n demo)
          (benchPlots inp)).map .write,
       .ok ⟨benchScores inp oracle trainOf pnOf n demo,
            benchCvRows inp oracle trainOf pnOf n demo,
            benchPlots inp,
            benchWrites inp
              (benchScores inp oracle trainOf pnOf n demo,
               benchCvRows inp oracle trainOf pnOf n demo)
              (benchPlots inp)⟩) := by
  have hplot : ∀ q ∈ inp.metaTrainCols,
      plot_bar false false false oracle.tt oracle.pvalOf q
        (inp.metaTrainCols.map fun q2 => (q2, inp.latentTest.map fun p =>
          (p.1, (drawResultsFor oracle (pnOf q2) demo (inp.yTrain q2)
            (inp.yTest q2) (trainOf p.1) p.2 n).map (·.testScore)))) =
      .ok ⟨(inp.latentTest.map (·.1)).map stripLastComponent, [], none⟩ := by
    intro q hq
    have hl : lookupA (inp.metaTrainCols.map fun q2 => (q2,
        inp.latentTest.map fun p => (p.1,
          (drawResultsFor oracle (pnOf q2) demo (inp.yTrain q2)
            (inp.yTest q2) (trainOf p.1) p.2 n).map (·.testScore)))) q =
        some (inp.latentTest.map fun p => (p.1,
          (drawResultsFor oracle (pnOf q) demo (inp.yTrain q) (inp.yTest q)
            (trainOf p.1) p.2 n).map (·.testScore))) :=
      lookupA_map_self _ inp.metaTrainCols q hq
    have hxl : ((inp.latentTest.map fun p => (p.1,
        (drawResultsFor oracle (pnOf q) demo (inp.yTrain q) (inp.yTest q)
          (trainOf p.1) p.2 n).map (·.testScore))).map (·.1)) =
        inp.latentTest.map (·.1) := by
      rw [List.map_map]
      rfl
    rw [plot_bar_all_false_run q _ _ hl, hxl]
  unfold benchmark_pred_exp
  rw [if_neg (fun hc => hc (by rw [hkeys]))]
  rw [if_neg (fun hc => hc (by rw [hcols]))]
  rw [checkDims_ok inp.latentTrain trainOf n inp.latentTest hlook hdim
    (fun p h => (hlen p h).1)]
  simp only [benchDims]
  rw [Option.getD_some, hdemo]
  rw [runQnames_ok oracle demo inp.yTrain inp.yTest inp.latentTrain
    inp.latentTest n trainOf pnOf hlook
    (fun p h => ⟨le_of_eq (hlen p h).1.symm, le_of_eq (hlen p h).2.symm⟩)
    hne inp.metaTrainCols hpn]
  simp only [benchTrainResult]
  rw [mapME_ok_map _ (fun _ => (⟨(inp.latentTest.map (·.1)).map
      stripLastComponent, [], none⟩ : PlotBarResult)) inp.metaTrainCols
    hplot]
  simp only [benchFinish]
  rfl

/-! ### Counting fit events -/

/-- Does an event fit a predictor for target `q` on embedding key `k`? -/
def isFitFor {Mat : Type} (q k : String) : Event Mat → Bool
  | .fit qn kk _ _ _ _ _ _ => qn == q && kk == k
  | .write _ => false

/-- Number of fit events in a trace for target `q` and embedding key `k`:
how many times the corresponding predictor gets fitted. -/
def fitCount {Mat : Type} (tr : List (Event Mat)) (q k : String) : ℕ :=
  tr.countP (isFitFor q k)

lemma countP_map_constB {α β : Type} (p : β → Bool) (f : α → β) (b : Bool)
    (hf : ∀ x, p (f x) = b) :
    ∀ l : List α, (l.map f).countP p = if b then l.length else 0
  | [] => by cases b <;> rfl
  | a :: l => by
      rw [List.map_cons, List.countP_cons, countP_map_constB p f b hf l,
        hf a]
      cases b <;> simp [List.length_cons]

lemma fitCount_fitEventsFor {Mat : Type} [Inhabited Mat]
    (pn : Predictor × String × String) (demo : List String)
    (qn k' : String) (trainArr testArr : EmbArray Mat) (n : ℕ)
    (q k : String) :
    fitCount (fitEventsFor pn demo qn k' trainArr testArr n) q k =
      if qn = q ∧ k' = k then n else 0 := by
  unfold fitCount fitEventsFor
  refine Eq.trans (countP_map_constB (isFitFor q k)
    (fun i => Event.fit qn k' i (gridFor pn.2.2) msssCfg demo
      (trainArr.draws.getD i default) (testArr.draws.getD i default))
    (qn == q && k' == k) (fun i => rfl) (List.range n)) ?_
  rw [List.length_range]
  by_cases h : qn = q ∧ k' = k
  · rw [if_pos h, if_pos (show (qn == q && k' == k) = true by
      simp [h.1, h.2])]
  · rw [if_neg h, if_neg (fun hb => h (by simpa using hb))]

lemma fitCount_append {Mat : Type} (t1 t2 : List (Event Mat))
    (q k : String) :
    fitCount (t1 ++ t2) q k = fitCount t1 q k + fitCount t2 q k := by
  unfold fitCount
  rw [List.countP_append]

lemma fitCount_writes {Mat : Type} (ws : List OutFile) (q k : String) :
    fitCount ((ws.map .write : List (Event Mat))) q k = 0 := by
  unfold fitCount
  rw [countP_map_constB (isFitFor q k) Event.write false (fun w => rfl)]
  rfl

lemma fitCount_flatMap {Mat α : Type} (g : α → List (Event Mat))
    (q k : String) :
    ∀ l : List α, fitCount (l.flatMap g) q k =
      (l.map fun x => fitCount (g x) q k).sum
  | [] => rfl
  | a :: l => by
      rw [List.flatMap_cons, List.map_cons, List.sum_cons, fitCount_append,
        fitCount_flatMap g q k l]

lemma sum_ite_zero_fst {β : Type} (k : String) (n : ℕ) :
    ∀ l : List (String × β), (∀ p ∈ l, p.1 ≠ k) →
      (l.map fun p => if p.1 = k then n else 0).sum = 0
  | [], _ => rfl
  | a :: l, h => by
      rw [List.map_cons, List.sum_cons,
        if_neg (h a (List.mem_cons_self a l)),
        sum_ite_zero_fst k n l (fun x hx => h x (List.mem_cons_of_mem a hx))]

lemma sum_ite_fst {β : Type} (k : String) (n : ℕ) :
    ∀ l : List (String × β), (l.map (·.1)).Nodup → k ∈ l.map (·.1) →
      (l.map fun p => if p.1 = k then n else 0).sum = n
  | [], _, hm => absurd hm (List.not_mem_nil k)
  | a :: l, hnd, hm => by
      rw [List.map_cons] at hnd hm
      rw [List.map_cons, List.sum_cons]
      by_cases ha : a.1 = k
      · rw [if_pos ha, sum_ite_zero_fst k n l (fun x hx hc =>
          (List.nodup_cons.mp hnd).1 (by
            rw [ha, ← hc]
            exact List.mem_map.mpr ⟨x, hx, rfl⟩))]
        exact Nat.add_zero n
      · rw [if_neg ha, sum_ite_fst k n l (List.nodup_cons.mp hnd).2
          ((List.mem_cons.mp hm).resolve_left fun he => ha he.symm)]
        exact Nat.zero_add n

lemma sum_ite_zero_self (k : String) (n : ℕ) :
    ∀ l : List String, (∀ x ∈ l, x ≠ k) →
      (l.map fun x => if x = k then n else 0).sum = 0
  | [], _ => rfl
  | a :: l, h => by
      rw [List.map_cons, List.sum_cons,
        if_neg (h a (List.mem_cons_self a l)),
        sum_ite_zero_self k n l
          (fun x hx => h x (List.mem_cons_of_mem a hx))]

lemma sum_ite_self (k : String) (n : ℕ) :
    ∀ l : List String, l.Nodup → k ∈ l →
      (l.map fun x => if x = k then n else 0).sum = n
  | [], _, hm => absurd hm (List.not_mem_nil k)
  | a :: l, hnd, hm => by
      rw [List.map_cons, List.sum_cons]
      by_cases ha : a = k
      · rw [if_pos ha, sum_ite_zero_self k n l (fun x hx hc =>
          (List.nodup_cons.mp hnd).1 (by rw [ha, ← hc]; exact hx))]
        exact Nat.add_zero n
      · rw [if_neg ha, sum_ite_self k n l (List.nodup_cons.mp hnd).2
          ((List.mem_cons.mp hm).resolve_left fun he => ha he.symm)]
        exact Nat.zero_add n

lemma fitCount_benchEvs {Mat : Type} [Inhabited Mat] (inp : BenchInput Mat)
    (trainOf : String → EmbArray Mat)
    (pnOf : String → Predictor × String × String) (n : ℕ)
    (demo : List String) (q k : String)
    (hndq : inp.metaTrainCols.Nodup)
    (hndk : (inp.latentTest.map (·.1)).Nodup)
    (hq : q ∈ inp.metaTrainCols) (hk : k ∈ inp.latentTest.map (·.1)) :
    fitCount (benchEvs inp trainOf pnOf n demo) q k = n := by
  unfold benchEvs
  rw [fitCount_flatMap]
  have hinner : ∀ q2 : String,
      fitCount (inp.latentTest.flatMap fun p =>
        fitEventsFor (pnOf q2) demo q2 p.1 (trainOf p.1) p.2 n) q k =
      if q2 = q then n else 0 := by
    intro q2
    rw [fitCount_flatMap]
    by_cases hq2 : q2 = q
    · rw [if_pos hq2]
      have hcong : (inp.latentTest.map fun p =>
          fitCount (fitEventsFor (pnOf q2) demo q2 p.1 (trainOf p.1) p.2 n)
            q k) =
          inp.latentTest.map fun p => if p.1 = k then n else 0 :=
        List.map_congr_left (fun p _ => by
          rw [fitCount_fitEventsFor]
          exact if_congr (and_iff_right hq2) rfl rfl)
      rw [hcong]
      exact sum_ite_fst k n inp.latentTest hndk hk
    · rw [if_neg hq2]
      refine List.sum_eq_zero fun x hx => ?_
      obtain ⟨p, hp, rfl⟩ := List.mem_map.mp hx
      rw [fitCount_fitEventsFor, if_neg (fun hc => hq2 hc.1)]
  rw [List.map_congr_left (fun q2 _ => hinner q2)]
  exact sum_ite_self q n inp.metaTrainCols hndq hq

/-- Looking a key up in an association list built over a list with
duplicate-free keys returns the value built from the matching element. -/
lemma lookupA_map_fst {α β : Type} (f : α → String) (g : α → β) :
    ∀ l : List α, (l.map f).Nodup → ∀ p ∈ l,
      lookupA (l.map fun x => (f x, g x)) (f p) = some (g p)
  | [], _, p, hp => absurd hp (List.not_mem_nil p)
  | a :: l, hnd, p, hp => by
      rw [List.map_cons] at hnd
      rw [List.map_cons]
      show (if f a == f p then some (g a) else
        lookupA (l.map fun x => (f x, g x)) (f p)) = some (g p)
      rcases List.mem_cons.mp hp with he | hm
      · subst he
        rw [if_pos (beq_iff_eq.mpr rfl)]
      · have hne : ¬ (f a == f p) = true := fun hb =>
          (List.nodup_cons.mp hnd).1 (by
            rw [beq_iff_eq.mp hb]
            exact List.mem_map.mpr ⟨p, hm, rfl⟩)
        rw [if_neg hne]
        exact lookupA_map_fst f g l (List.nodup_cons.mp hnd).2 p hm

/-- C2: on a run where the two assertions hold, every (target, embedding)
pair fits its predictor exactly once per resample draw — `n` fit events in
total for that pair, the draw-`i` fit using the train draw `i` and the
test draw `i` of the same index — and the aggregated results hold exactly
one test score per draw for that pair: the score of the best estimator of
draw `i` on the held-out test draw `i`. -/
theorem C2_per_draw_fit_and_scores {Mat : Type} [Inhabited Mat]
    (inp : BenchInput Mat) (oracle : MLOracle Mat)
    (trainOf : String → EmbArray Mat)
    (pnOf : String → Predictor × String × String) (n : ℕ)
    (demo : List String)
    (hkeys : inp.latentTest.map (·.1) = inp.latentTrain.map (·.1))
    (hcols : inp.metaTestCols = inp.metaTrainCols)
    (hlook : ∀ p ∈ inp.latentTest,
      lookupA inp.latentTrain p.1 = some (trainOf p.1))
    (hdim : ∀ p ∈ inp.latentTest, (trainOf p.1).latentDim = p.2.latentDim)
    (hlen : ∀ p ∈ inp.latentTest, (trainOf p.1).draws.length = n ∧
      p.2.draws.length = n)
    (hdemo : demoFor inp.dataset = some demo)
    (hpn : ∀ q ∈ inp.metaTrainCols,
      get_predictor (inp.yTrain q) = some (pnOf q))
    (hne : inp.latentTest ≠ [])
    (hndq : inp.metaTrainCols.Nodup)
    (hndk : (inp.latentTest.map (·.1)).Nodup) :
    ∃ (tr : List (Event Mat)) (out : BenchOutput),
      benchmark_pred_exp inp oracle = (tr, .ok out) ∧
      ∀ q ∈ inp.metaTrainCols, ∀ p ∈ inp.latentTest,
        fitCount tr q p.1 = n ∧
        (∀ i < n, (Event.fit q p.1 i (gridFor (pnOf q).2.2) msssCfg demo
            ((trainOf p.1).draws.getD i default)
            (p.2.draws.getD i default)) ∈ tr) ∧
        ∃ scores : List ℚ,
          (lookupA out.predictResults q).bind
            (fun row => lookupA row p.1) = some scores ∧
          scores.length = n ∧
          ∀ i < n, scores[i]? = some
            ((oracle.runDraw (gridFor (pnOf q).2.2) msssCfg demo
              (inp.yTrain q) (inp.yTest q)
              ((trainOf p.1).draws.getD i default)
              (p.2.draws.getD i default)).testScore) := by
  refine ⟨_, _, benchmark_success inp oracle trainOf pnOf n demo hkeys hcols
    hlook hdim hlen hdemo hpn hne, ?_⟩
  intro q hq p hp
  refine ⟨?_, ?_, ?_⟩
  · rw [fitCount_append, fitCount_writes, Nat.add_zero]
    exact fitCount_benchEvs inp trainOf pnOf n demo q p.1 hndq hndk hq
      (List.mem_map.mpr ⟨p, hp, rfl⟩)
  · intro i hi
    exact List.mem_append_left _ (List.mem_flatMap.mpr ⟨q, hq,
      List.mem_flatMap.mpr ⟨p, hp, List.mem_map.mpr
        ⟨i, List.mem_range.mpr hi, rfl⟩⟩⟩)
  · refine ⟨(drawResultsFor oracle (pnOf q) demo (inp.yTrain q)
      (inp.yTest q) (trainOf p.1) p.2 n).map (·.testScore), ?_, ?_, ?_⟩
    · have h1 : lookupA (benchScores inp oracle trainOf pnOf n demo) q =
          some (inp.latentTest.map fun p2 => (p2.1,
            (drawResultsFor oracle (pnOf q) demo (inp.yTrain q)
              (inp.yTest q) (trainOf p2.1) p2.2 n).map (·.testScore))) :=
        lookupA_map_self _ inp.metaTrainCols q hq
      show (lookupA (benchScores inp oracle trainOf pnOf n demo) q).bind
        (fun row => lookupA row p.1) = some ((drawResultsFor oracle (pnOf q)
          demo (inp.yTrain q) (inp.yTest q) (trainOf p.1) p.2 n).map
          (·.testScore))
      rw [h1]
      exact lookupA_map_fst (fun x => x.1)
        (fun p2 => (drawResultsFor oracle (pnOf q) demo (inp.yTrain q)
          (inp.yTest q) (trainOf p2.1) p2.2 n).map (·.testScore))
        inp.latentTest hndk p hp
    · unfold drawResultsFor
      rw [List.length_map, List.length_map, List.length_range]
    · intro i hi
      unfold drawResultsFor
      rw [List.getElem?_map, List.getElem?_map, List.getElem?_range hi]
      rfl

/-- Witness for C2 at a one-draw, one-target, one-embedding input. -/
theorem C2_per_draw_fit_and_scores_witness :
    ∃ (tr : List (Event Unit)) (out : BenchOutput),
      benchmark_pred_exp
        (⟨"hbn", "out", [("m", ⟨[()], 1⟩)], [("m", ⟨[()], 1⟩)], ["age"],
          ["age"], fun _ => .strs ["x"], fun _ => .strs ["x"]⟩ :
          BenchInput Unit)
        ⟨fun _ _ _ _ _ _ _ => ⟨1, 0, "p", 1⟩, fun _ _ => (0, .nan),
          fun _ => .nan⟩ = (tr, .ok out) ∧
      ∀ q ∈ (["age"] : List String),
        ∀ p ∈ [("m", (⟨[()], 1⟩ : EmbArray Unit))],
          fitCount tr q p.1 = 1 ∧
          (∀ i < 1, (Event.fit q p.1 i (gridFor "AUC ROC") msssCfg
              ["site", "age", "sex"] (([()] : List Unit).getD i default)
              (p.2.draws.getD i default)) ∈ tr) ∧
          ∃ scores : List ℚ,
            (lookupA out.predictResults q).bind
              (fun row => lookupA row p.1) = some scores ∧
            scores.length = 1 ∧
            ∀ i < 1, scores[i]? = some 1 :=
  C2_per_draw_fit_and_scores
    (⟨"hbn", "out", [("m", ⟨[()], 1⟩)], [("m", ⟨[()], 1⟩)], ["age"],
      ["age"], fun _ => .strs ["x"], fun _ => .strs ["x"]⟩ :
      BenchInput Unit)
    ⟨fun _ _ _ _ _ _ _ => ⟨1, 0, "p", 1⟩, fun _ _ => (0, .nan),
      fun _ => .nan⟩
    (fun _ => ⟨[()], 1⟩)
    (fun _ => (.calibratedRidgeClassifier "isotonic", "roc_auc_ovr",
      "AUC ROC"))
    1 ["site", "age", "sex"]
    rfl rfl (by decide) (by decide) (by decide) rfl (fun _ _ => rfl)
    (by decide) (by decide) (by decide)

end Mmbench
